import Mathlib

/-!
Verification of the OpenClaw Cardputer session core: binary protocol codec
(`protocol.h` / `protocol.cpp`), streaming parser (`ProtocolParser`), the
voice-activity-detection step (`AudioStreamer::updateVAD`), and the
application state machine (`app_state_machine.cpp`), shallowly embedded as
executable Lean functions.  Machine integers are modelled as `Nat` with
explicit truncation (`% 256`, `% 65536`, `% 2^32`) exactly where the C++
types force it; byte buffers are `List Nat`.
-/

namespace OpenClaw

/-! ## Protocol constants (protocol.h) -/

def PROTOCOL_VERSION : Nat := 1

def PROTOCOL_MAGIC : Nat := 0x4F

def PROTOCOL_HEADER_SIZE : Nat := 8

def PROTOCOL_FOOTER_SIZE : Nat := 2

def PROTOCOL_MAX_PAYLOAD_SIZE : Nat := 8192

def PROTOCOL_MAX_MESSAGE_SIZE : Nat :=
  PROTOCOL_HEADER_SIZE + PROTOCOL_MAX_PAYLOAD_SIZE + PROTOCOL_FOOTER_SIZE

/-! ## CRC16 (CCITT-FALSE) lookup table, transcribed from protocol.cpp -/

def crc16_table : List Nat := [
  0x0000, 0x1021, 0x2042, 0x3063, 0x4084, 0x50A5, 0x60C6, 0x70E7,
  0x8108, 0x9129, 0xA14A, 0xB16B, 0xC18C, 0xD1AD, 0xE1CE, 0xF1EF,
  0x1231, 0x0210, 0x3273, 0x2252, 0x52B5, 0x4294, 0x72F7, 0x62D6,
  0x9339, 0x8318, 0xB37B, 0xA35A, 0xD3BD, 0xC39C, 0xF3FF, 0xE3DE,
  0x2462, 0x3443, 0x0420, 0x1401, 0x64E6, 0x74C7, 0x44A4, 0x5485,
  0xA56A, 0xB54B, 0x8528, 0x9509, 0xE5EE, 0xF5CF, 0xC5AC, 0xD58D,
  0x3653, 0x2672, 0x1611, 0x0630, 0x76D7, 0x66F6, 0x5695, 0x46B4,
  0xB75B, 0xA77A, 0x9719, 0x8738, 0xF7DF, 0xE7FE, 0xD79D, 0xC7BC,
  0x48C4, 0x58E5, 0x6886, 0x78A7, 0x0840, 0x1861, 0x2802, 0x3823,
  0xC9CC, 0xD9ED, 0xE98E, 0xF9AF, 0x8948, 0x9969, 0xA90A, 0xB92B,
  0x5AF5, 0x4AD4, 0x7AB7, 0x6A96, 0x1A71, 0x0A50, 0x3A33, 0x2A12,
  0xDBFD, 0xCBDC, 0xFBBF, 0xEB9E, 0x9B79, 0x8B58, 0xBB3B, 0xAB1A,
  0x6CA6, 0x7C87, 0x4CE4, 0x5CC5, 0x2C22, 0x3C03, 0x0C60, 0x1C41,
  0xEDAE, 0xFD8F, 0xCDEC, 0xDDCD, 0xAD2A, 0xBD0B, 0x8D68, 0x9D49,
  0x7E97, 0x6EB6, 0x5ED5, 0x4EF4, 0x3E13, 0x2E32, 0x1E51, 0x0E70,
  0xFF9F, 0xEFBE, 0xDFDD, 0xCFFC, 0xBF1B, 0xAF3A, 0x9F59, 0x8F78,
  0x9188, 0x81A9, 0xB1CA, 0xA1EB, 0xD10C, 0xC12D, 0xF14E, 0xE16F,
  0x1080, 0x00A1, 0x30C2, 0x20E3, 0x5004, 0x4025, 0x7046, 0x6067,
  0x83B9, 0x9398, 0xA3FB, 0xB3DA, 0xC33D, 0xD31C, 0xE37F, 0xF35E,
  0x02B1, 0x1290, 0x22F3, 0x32D2, 0x4235, 0x5214, 0x6277, 0x7256,
  0xB5EA, 0xA5CB, 0x95A8, 0x8589, 0xF56E, 0xE54F, 0xD52C, 0xC50D,
  0x34E2, 0x24C3, 0x14A0, 0x0481, 0x7466, 0x6447, 0x5424, 0x4405,
  0xA7DB, 0xB7FA, 0x8799, 0x97B8, 0xE75F, 0xF77E, 0xC71D, 0xD73C,
  0x26D3, 0x36F2, 0x0691, 0x16B0, 0x6657, 0x7676, 0x4615, 0x5634,
  0xD94C, 0xC96D, 0xF90E, 0xE92F, 0x99C8, 0x89E9, 0xB98A, 0xA9AB,
  0x5844, 0x4865, 0x7806, 0x6827, 0x18C0, 0x08E1, 0x3882, 0x28A3,
  0xCB7D, 0xDB5C, 0xEB3F, 0xFB1E, 0x8BF9, 0x9BD8, 0xABBB, 0xBB9A,
  0x4A75, 0x5A54, 0x6A37, 0x7A16, 0x0AF1, 0x1AD0, 0x2AB3, 0x3A92,
  0xFD2E, 0xED0F, 0xDD6C, 0xCD4D, 0xBDAA, 0xAD8B, 0x9DE8, 0x8DC9,
  0x7C26, 0x6C07, 0x5C64, 0x4C45, 0x3CA2, 0x2C83, 0x1CE0, 0x0CC1,
  0xEF1F, 0xFF3E, 0xCF5D, 0xDF7C, 0xAF9B, 0xBFBA, 0x8FD9, 0x9FF8,
  0x6E17, 0x7E36, 0x4E55, 0x5E74, 0x2E93, 0x3EB2, 0x0ED1, 0x1EF0]

/-- One step of `ProtocolMessage::calculateCRC16`:
`crc = (crc << 8) ^ crc16_table[((crc >> 8) ^ data[i]) & 0xFF]`, where `crc`
is a `uint16_t` (hence the final `% 65536`). -/
def crc16_update (crc b : Nat) : Nat :=
  ((crc <<< 8) ^^^ crc16_table.getD (((crc >>> 8) ^^^ b) &&& 0xFF) 0) % 65536

/-- `ProtocolMessage::calculateCRC16(data, length)`: fold of `crc16_update`
over the bytes, starting from `0xFFFF`. -/
def calculateCRC16 (data : List Nat) : Nat :=
  data.foldl crc16_update 0xFFFF

/-! ## ProtocolHeader (protocol.h) -/

structure ProtocolHeader where
  magic : Nat
  version : Nat
  type_ : Nat
  flags : Nat
  payload_length : Nat
  timestamp : Nat
deriving DecidableEq, Repr

/-- `ProtocolHeader::encode`: writes 10 bytes (4 fixed bytes, a 2-byte
little-endian payload length, and a 4-byte little-endian timestamp) into
`buffer[0..9]`.  Each stored value is a `uint8_t`, hence `% 256`. -/
def ProtocolHeader.encodeBytes (h : ProtocolHeader) : List Nat :=
  [h.magic % 256, h.version % 256, h.type_ % 256, h.flags % 256,
   h.payload_length % 256, (h.payload_length >>> 8) % 256,
   h.timestamp % 256, (h.timestamp >>> 8) % 256,
   (h.timestamp >>> 16) % 256, (h.timestamp >>> 24) % 256]

/-- `ProtocolHeader::decode`: reads the 10 header bytes back and checks
magic and version.  The C++ returns `bool` and fills the fields in place;
we return `none` exactly when it returns `false`. -/
def headerDecode (buffer : List Nat) : Option ProtocolHeader :=
  let h : ProtocolHeader :=
    { magic := buffer.getD 0 0
      version := buffer.getD 1 0
      type_ := buffer.getD 2 0
      flags := buffer.getD 3 0
      payload_length := buffer.getD 4 0 ||| (buffer.getD 5 0 <<< 8)
      timestamp := buffer.getD 6 0 ||| (buffer.getD 7 0 <<< 8) |||
                   (buffer.getD 8 0 <<< 16) ||| (buffer.getD 9 0 <<< 24) }
  if h.magic = PROTOCOL_MAGIC ∧ h.version = PROTOCOL_VERSION then some h else none

/-! ## ProtocolMessage (protocol.cpp) -/

structure ProtocolMessage where
  type_ : Nat
  flags_ : Nat
  payload_ : List Nat
  timestamp_ : Nat
deriving DecidableEq, Repr

/-- `ProtocolMessage::getTotalSize()` = `PROTOCOL_HEADER_SIZE +
payload_length_ + PROTOCOL_FOOTER_SIZE` (note: the constant is 8, not 10). -/
def ProtocolMessage.getTotalSize (m : ProtocolMessage) : Nat :=
  PROTOCOL_HEADER_SIZE + m.payload_.length + PROTOCOL_FOOTER_SIZE

/-- `ProtocolMessage::setPayload`: lengths above `PROTOCOL_MAX_PAYLOAD_SIZE`
are truncated to the first `PROTOCOL_MAX_PAYLOAD_SIZE` bytes. -/
def ProtocolMessage.setPayload (m : ProtocolMessage) (data : List Nat) : ProtocolMessage :=
  { m with payload_ := data.take PROTOCOL_MAX_PAYLOAD_SIZE }

/-- Overwrite `buf` starting at index `pos` with `data` (a `memcpy` into a
byte buffer; all uses in this file are in bounds). -/
def listWrite (buf : List Nat) (pos : Nat) (data : List Nat) : List Nat :=
  buf.take pos ++ data ++ buf.drop (pos + data.length)

/-- The header `ProtocolMessage::serialize` builds before encoding
(`payload_length_` is a `size_t` stored into a `uint16_t` field). -/
def serializeHeader (m : ProtocolMessage) : ProtocolHeader :=
  { magic := PROTOCOL_MAGIC
    version := PROTOCOL_VERSION
    type_ := m.type_
    flags := m.flags_
    payload_length := m.payload_.length % 65536
    timestamp := m.timestamp_ }

/-- The byte image produced by `ProtocolMessage::serialize` (the first
`getTotalSize` bytes of the caller's buffer).  Mirrors the write sequence of
the C++: `header.encode(buffer)` writes bytes 0..9, the payload is copied at
offset `PROTOCOL_HEADER_SIZE` (= 8), and the CRC over bytes
`[0, 8 + payload_length)` is stored little-endian at offset
`8 + payload_length`. -/
def ProtocolMessage.serializeBytes (m : ProtocolMessage) : List Nat :=
  let buf0 := List.replicate m.getTotalSize 0
  let buf1 := listWrite buf0 0 (serializeHeader m).encodeBytes
  let buf2 := if 0 < m.payload_.length then listWrite buf1 PROTOCOL_HEADER_SIZE m.payload_ else buf1
  let crc := calculateCRC16 (buf2.take (PROTOCOL_HEADER_SIZE + m.payload_.length))
  listWrite buf2 (PROTOCOL_HEADER_SIZE + m.payload_.length) [crc % 256, (crc >>> 8) % 256]

/-- `ProtocolMessage::serialize(buffer, buffer_size, out_length)`: fails when
the caller's buffer is smaller than `getTotalSize`; otherwise the first
`out_length = getTotalSize` bytes of the buffer are `serializeBytes`. -/
def ProtocolMessage.serialize (m : ProtocolMessage) (buffer_size : Nat) : Option (List Nat) :=
  if buffer_size < m.getTotalSize then none else some m.serializeBytes

/-- `ProtocolMessage::deserialize(buffer, buffer_length)`: header decode,
length check against the declared payload length, CRC verification over
bytes `[0, 8 + payload_length)`, then the fields are set (the payload via
`setPayload`, which truncates at `PROTOCOL_MAX_PAYLOAD_SIZE`).  Returns the
resulting message, `none` when the C++ returns `false`. -/
def deserialize (buffer : List Nat) : Option ProtocolMessage :=
  if buffer.length < PROTOCOL_HEADER_SIZE + PROTOCOL_FOOTER_SIZE then none
  else
    match headerDecode buffer with
    | none => none
    | some header =>
      if buffer.length < PROTOCOL_HEADER_SIZE + header.payload_length + PROTOCOL_FOOTER_SIZE then
        none
      else
        let data_length := PROTOCOL_HEADER_SIZE + header.payload_length
        let received_crc := buffer.getD data_length 0 ||| (buffer.getD (data_length + 1) 0 <<< 8)
        let calculated_crc := calculateCRC16 (buffer.take data_length)
        if received_crc ≠ calculated_crc then none
        else
          let base : ProtocolMessage :=
            { type_ := header.type_, flags_ := header.flags,
              payload_ := [], timestamp_ := header.timestamp }
          if 0 < header.payload_length then
            some (base.setPayload ((buffer.drop PROTOCOL_HEADER_SIZE).take header.payload_length))
          else
            some base

/-- `ProtocolMessage::isValid()`. -/
def ProtocolMessage.isValid (m : ProtocolMessage) : Bool :=
  m.type_ ≠ 0xFF && m.payload_.length ≤ PROTOCOL_MAX_PAYLOAD_SIZE

/-! ## ProtocolParser (protocol.cpp) -/

inductive ParseState where
  | WAITING_MAGIC
  | WAITING_HEADER
  | WAITING_PAYLOAD
  | WAITING_CRC
  | COMPLETE
deriving DecidableEq, Repr

structure ProtocolParser where
  state_ : ParseState
  buffer_ : List Nat
  buffer_pos_ : Nat
  expected_length_ : Nat
  current_header_ : ProtocolHeader
deriving DecidableEq, Repr

def header0 : ProtocolHeader := ⟨0, 0, 0, 0, 0, 0⟩

/-- The parser constructor: `WAITING_MAGIC`, zeroed buffer of
`PROTOCOL_MAX_MESSAGE_SIZE` bytes (`memset`), position 0. -/
def initParser : ProtocolParser :=
  { state_ := .WAITING_MAGIC, buffer_ := List.replicate PROTOCOL_MAX_MESSAGE_SIZE 0,
    buffer_pos_ := 0, expected_length_ := 0, current_header_ := header0 }

/-- `ProtocolParser::reset()` (buffer contents are not cleared). -/
def ProtocolParser.reset (p : ProtocolParser) : ProtocolParser :=
  { p with state_ := .WAITING_MAGIC, buffer_pos_ := 0, expected_length_ := 0 }

/-- One iteration of the loop body of `ProtocolParser::feed`: store the byte
at `buffer_[buffer_pos_++]`, run the state-machine switch, then the trailing
overflow guard (`if (buffer_pos_ >= PROTOCOL_MAX_MESSAGE_SIZE) reset()`).
A successful `deserialize` returns the message immediately (`return true`),
and a failed header decode does `reset(); continue;` — both skip the
overflow guard, exactly as in the C++. -/
def feedByte (p : ProtocolParser) (b : Nat) : ProtocolParser × Option ProtocolMessage :=
  let q : ProtocolParser :=
    { p with buffer_ := p.buffer_.set p.buffer_pos_ b, buffer_pos_ := p.buffer_pos_ + 1 }
  let overflow : ProtocolParser → ProtocolParser := fun r =>
    if PROTOCOL_MAX_MESSAGE_SIZE ≤ r.buffer_pos_ then r.reset else r
  match q.state_ with
  | .WAITING_MAGIC =>
      if q.buffer_.getD 0 0 = PROTOCOL_MAGIC then
        (overflow { q with state_ := .WAITING_HEADER, expected_length_ := 10 }, none)
      else
        (overflow { q with buffer_pos_ := 0 }, none)
  | .WAITING_HEADER =>
      if q.expected_length_ ≤ q.buffer_pos_ then
        match headerDecode q.buffer_ with
        | none => (q.reset, none)
        | some h =>
          if 0 < h.payload_length then
            (overflow { q with current_header_ := h, state_ := .WAITING_PAYLOAD
                               expected_length_ := PROTOCOL_HEADER_SIZE + h.payload_length },
             none)
          else
            (overflow { q with current_header_ := h, state_ := .WAITING_CRC
                               expected_length_ := PROTOCOL_HEADER_SIZE + PROTOCOL_FOOTER_SIZE },
             none)
      else (overflow q, none)
  | .WAITING_PAYLOAD =>
      if q.expected_length_ ≤ q.buffer_pos_ then
        (overflow { q with state_ := .WAITING_CRC
                           expected_length_ := PROTOCOL_HEADER_SIZE +
                             q.current_header_.payload_length + PROTOCOL_FOOTER_SIZE },
         none)
      else (overflow q, none)
  | .WAITING_CRC =>
      if q.expected_length_ ≤ q.buffer_pos_ then
        match deserialize (q.buffer_.take q.buffer_pos_) with
        | some msg => (q.reset, some msg)
        | none => (q.reset, none)
      else (overflow q, none)
  | .COMPLETE => (q.reset, none)

/-- `ProtocolParser::feed(data, length, out_message)`: processes the bytes
in order; on the first completed message it returns `true` immediately,
leaving the remaining bytes of the chunk unprocessed. -/
def feed : ProtocolParser → List Nat → ProtocolParser × Option ProtocolMessage
  | p, [] => (p, none)
  | p, b :: rest =>
    match feedByte p b with
    | (p', some msg) => (p', some msg)
    | (p', none) => feed p' rest

/-- Driving `feed` once per chunk (as a transport caller does), collecting
the emitted messages in order. -/
def feedChunks (p : ProtocolParser) (chunks : List (List Nat)) :
    ProtocolParser × List ProtocolMessage :=
  chunks.foldl (fun acc c =>
    let r := feed acc.1 c
    (r.1, acc.2 ++ r.2.toList)) (p, [])

/-! ## uint32 subtraction (for `millis()` arithmetic) -/

/-- `a - b` on `uint32_t` values (modular). -/
def sub32 (a b : Nat) : Nat :=
  (a + 4294967296 - b % 4294967296) % 4294967296

/-! ## VAD engine (audio_streamer.cpp) -/

inductive VADState where
  | SILENCE
  | VOICE_START
  | VOICE_ACTIVE
  | VOICE_END
deriving DecidableEq, Repr

inductive AudioEvent where
  | STREAM_STARTED
  | STREAM_STOPPED
  | FRAME_CAPTURED
  | VOICE_DETECTED
  | VOICE_LOST
  | ENCODED_PACKET_READY
  | ERROR
deriving DecidableEq, Repr

/-- The VAD-relevant fields of `AudioStreamerConfig`. -/
structure VadConfig where
  vad_threshold : Int
  vad_min_duration_ms : Nat
  vad_silence_ms : Nat
deriving DecidableEq, Repr

/-- The VAD-relevant mutable state of `AudioStreamer`, together with the
sequence of events delivered through `event_callback_` so far. -/
structure VadM where
  vad_state_ : VADState
  voice_start_time_ : Nat
  silence_start_time_ : Nat
  voice_frame_count_ : Nat
  voice_events_ : Nat
  events : List AudioEvent
deriving DecidableEq, Repr

/-- The constructor initializes the VAD to `SILENCE` with zeroed counters. -/
def vadInit : VadM := ⟨.SILENCE, 0, 0, 0, 0, []⟩

/-- `AudioStreamer::updateVAD(rms)`, with `now = millis()` passed explicitly
and the RMS level (a C `float`) modelled as a rational.
`is_speech = rms > config_.vad_threshold`. -/
def updateVAD (cfg : VadConfig) (m : VadM) (now : Nat) (rms : ℚ) : VadM :=
  let is_speech : Bool := decide ((cfg.vad_threshold : ℚ) < rms)
  match m.vad_state_ with
  | .SILENCE =>
      if is_speech then
        { m with vad_state_ := .VOICE_START, voice_start_time_ := now,
                 voice_frame_count_ := 0 }
      else m
  | .VOICE_START =>
      if is_speech then
        if cfg.vad_min_duration_ms ≤ sub32 now m.voice_start_time_ then
          { m with vad_state_ := .VOICE_ACTIVE, voice_events_ := m.voice_events_ + 1,
                   events := m.events ++ [AudioEvent.VOICE_DETECTED] }
        else m
      else { m with vad_state_ := .SILENCE }
  | .VOICE_ACTIVE =>
      if is_speech then
        { m with voice_frame_count_ := m.voice_frame_count_ + 1 }
      else
        { m with vad_state_ := .VOICE_END, silence_start_time_ := now }
  | .VOICE_END =>
      if is_speech then { m with vad_state_ := .VOICE_ACTIVE }
      else if cfg.vad_silence_ms ≤ sub32 now m.silence_start_time_ then
        { m with vad_state_ := .SILENCE, events := m.events ++ [AudioEvent.VOICE_LOST],
                 voice_frame_count_ := 0 }
      else m

/-- Feed a sequence of `(millis, rms)` audio chunks through `updateVAD`. -/
def runVAD (cfg : VadConfig) (m : VadM) (chunks : List (Nat × ℚ)) : VadM :=
  chunks.foldl (fun s c => updateVAD cfg s c.1 c.2) m

/-! ## Application state machine (app_state_machine.cpp) -/

inductive AppState where
  | BOOT
  | CONFIG_LOADING
  | CONFIG_ERROR_STATE
  | WIFI_CONNECTING
  | WIFI_ERROR_STATE
  | GATEWAY_CONNECTING
  | GATEWAY_ERROR_STATE
  | AUTHENTICATING
  | READY
  | VOICE_INPUT
  | TEXT_INPUT_STATE
  | AI_PROCESSING
  | AI_RESPONDING
  | ANCIENT_MODE
  | ERROR_STATE
  | SHUTTING_DOWN
deriving DecidableEq, Repr

inductive AppEvent where
  | NONE
  | BOOT_COMPLETE
  | CONFIG_LOADED
  | CONFIG_ERROR
  | WIFI_CONNECTED
  | WIFI_DISCONNECTED
  | WIFI_ERROR
  | GATEWAY_CONNECTED
  | GATEWAY_DISCONNECTED
  | GATEWAY_ERROR
  | AUTHENTICATED
  | AUTH_FAILED
  | KEY_PRESSED
  | TEXT_INPUT
  | TEXT_SUBMITTED
  | VOICE_KEY_PRESSED
  | VOICE_STARTED
  | VOICE_STOPPED
  | VOICE_DETECTED
  | VOICE_LOST
  | AI_THINKING
  | AI_RESPONSE_CHUNK
  | AI_RESPONSE_COMPLETE
  | AI_ERROR
  | AUDIO_STARTED
  | AUDIO_STOPPED
  | AUDIO_ERROR
  | ANCIENT_MODE_TRIGGER
  | ERROR_RECOVERED
  | TIMEOUT
  | USER_ACTIVITY
  | FORCE_RECONNECT
  | SHUTDOWN
deriving DecidableEq, Repr

/-- `StateMachineEvent` (the untyped `void*` payload is not consumed by the
engine and is omitted). -/
structure SMEvent where
  type_ : AppEvent
  timestamp : Nat
deriving DecidableEq, Repr

/-- `Transition`: guards and actions are nullable `std::function` callbacks;
a guard is modelled by the boolean it returns (guards are pure), an action
by an opaque label recorded in the trace when it runs. -/
structure Transition where
  event : AppEvent
  target_state : AppState
  guard : Option Bool
  action : Option Nat
deriving DecidableEq, Repr

/-- Observable callback invocations.  An `act` records the label of the
action together with the machine fields an action body could observe at
that moment (current state, previous state, entry time); a `change` records
the global on-state-change callback with its two arguments. -/
inductive TraceEv where
  | act (label : Nat) (cur prev : AppState) (entryTime : Nat)
  | change (label : Nat) (fromS toS : AppState)
deriving DecidableEq, Repr

/-- `class State` (app_state_machine.h). -/
structure SMState where
  id_ : AppState
  entry_action_ : Option Nat
  exit_action_ : Option Nat
  update_action_ : Option Nat
  transitions_ : List Transition
  timeout_ms_ : Nat
  timeout_state_ : AppState
  entry_time_ : Nat
  last_activity_time_ : Nat
deriving DecidableEq, Repr

/-- The `State(id, name)` constructor (the display name is dropped). -/
def mkState (id : AppState) : SMState := ⟨id, none, none, none, [], 0, .BOOT, 0, 0⟩

/-- `State::checkTimeout(current_time, out_target)`:
`timeout_ms_ > 0 && (current_time - entry_time_) >= timeout_ms_`. -/
def SMState.checkTimeout (st : SMState) (current_time : Nat) : Option AppState :=
  if 0 < st.timeout_ms_ ∧ st.timeout_ms_ ≤ sub32 current_time st.entry_time_ then
    some st.timeout_state_
  else none

/-- `AppStateMachine` (the `states_` map is an association list with unique
keys; `current_state_` models the `State*` pointer by the id it points
at). -/
structure Machine where
  states_ : List (AppState × SMState)
  current_state_id_ : AppState
  previous_state_id_ : AppState
  current_state_ : Option AppState
  event_queue_ : List SMEvent
  on_state_change_ : Option Nat
  transitioning_ : Bool
deriving DecidableEq, Repr

/-- The `AppStateMachine` constructor. -/
def initMachine : Machine := ⟨[], .BOOT, .BOOT, none, [], none, false⟩

/-- `AppStateMachine::findState(id)`. -/
def findState (m : Machine) (id : AppState) : Option SMState :=
  (m.states_.find? (fun p => p.1 = id)).map Prod.snd

/-- Apply `f` to the state stored under key `id` (mutation of a map entry
in place). -/
def updStates (m : Machine) (id : AppState) (f : SMState → SMState) : Machine :=
  { m with states_ := m.states_.map (fun p => if p.1 = id then (p.1, f p.2) else p) }

/-- `current_state_->onExit()`: runs the exit action if one is set. -/
def onExitM (m : Machine) (cid : AppState) : Machine × List TraceEv :=
  match findState m cid with
  | none => (m, [])
  | some st =>
    match st.exit_action_ with
    | some a => (m, [TraceEv.act a m.current_state_id_ m.previous_state_id_ st.entry_time_])
    | none => (m, [])

/-- `current_state_->onEntry()`: stamps `entry_time_ = millis()` (and
`last_activity_time_`), then runs the entry action if one is set. -/
def onEntryM (m : Machine) (cid : AppState) (now : Nat) : Machine × List TraceEv :=
  match findState m cid with
  | none => (m, [])
  | some st =>
    let m' := updStates m cid (fun s => { s with entry_time_ := now, last_activity_time_ := now })
    match st.entry_action_ with
    | some a => (m', [TraceEv.act a m'.current_state_id_ m'.previous_state_id_ now])
    | none => (m', [])

/-- `AppStateMachine::transitionTo(target)`, with `now = millis()` passed
explicitly.  Returns the C++ boolean result, the machine after the call,
and the callback invocations in order. -/
def transitionTo (m : Machine) (target : AppState) (now : Nat) :
    Bool × Machine × List TraceEv :=
  if m.transitioning_ then (false, m, [])
  else if target = m.current_state_id_ then (true, m, [])
  else
    match findState m target with
    | none => (false, m, [])
    | some _ =>
      let m1 := { m with transitioning_ := true }
      let r1 :=
        match m1.current_state_ with
        | some cid => onExitM m1 cid
        | none => (m1, [])
      let m3 := { r1.1 with previous_state_id_ := r1.1.current_state_id_,
                            current_state_id_ := target, current_state_ := some target }
      let r2 := onEntryM m3 target now
      let tr3 :=
        match r2.1.on_state_change_ with
        | some cb => [TraceEv.change cb r2.1.previous_state_id_ r2.1.current_state_id_]
        | none => []
      (true, { r2.1 with transitioning_ := false }, r1.2 ++ r2.2 ++ tr3)

/-- `AppStateMachine::forceTransition(target)`: delegates to `transitionTo`
and discards its result. -/
def forceTransition (m : Machine) (target : AppState) (now : Nat) :
    Machine × List TraceEv :=
  let r := transitionTo m target now
  (r.2.1, r.2.2)

/-- `State::handleEvent(event, out_target)`: consult the transition list in
declared order, take the first rule whose event matches and whose guard (if
any) is true, running its action (if any). -/
def handleEventAux (e : SMEvent) (cur prev : AppState) (entryTime : Nat) :
    List Transition → Option (AppState × List TraceEv)
  | [] => none
  | t :: rest =>
    if t.event = e.type_ then
      if t.guard.getD true then
        match t.action with
        | some a => some (t.target_state, [TraceEv.act a cur prev entryTime])
        | none => some (t.target_state, [])
      else handleEventAux e cur prev entryTime rest
    else handleEventAux e cur prev entryTime rest

/-- `AppStateMachine::processEvents()`: drain the FIFO event queue, letting
the current state handle each event and transitioning on a handled one. -/
def processEventsAux (now : Nat) : Machine → List SMEvent → Machine × List TraceEv
  | m, [] => (m, [])
  | m, e :: rest =>
    let m0 := { m with event_queue_ := rest }
    let hr :=
      match m0.current_state_ with
      | none => none
      | some cid =>
        match findState m0 cid with
        | none => none
        | some st =>
          handleEventAux e m0.current_state_id_ m0.previous_state_id_
            st.entry_time_ st.transitions_
    match hr with
    | some (tgt, tra) =>
      let r := transitionTo m0 tgt now
      let rr := processEventsAux now r.2.1 rest
      (rr.1, tra ++ r.2.2 ++ rr.2)
    | none =>
      let rr := processEventsAux now m0 rest
      (rr.1, rr.2)

def processEvents (m : Machine) (now : Nat) : Machine × List TraceEv :=
  processEventsAux now m m.event_queue_

/-- `AppStateMachine::update()`: bail out when there is no current state or
a transition is in progress; otherwise run the state's update action, check
its timeout (transitioning to the timeout target on expiry), then drain the
event queue. -/
def Machine.update (m : Machine) (now : Nat) : Machine × List TraceEv :=
  match m.current_state_ with
  | none => (m, [])
  | some cid =>
    if m.transitioning_ then (m, [])
    else
      let tr0 :=
        match findState m cid with
        | some st =>
          (match st.update_action_ with
           | some a => [TraceEv.act a m.current_state_id_ m.previous_state_id_ st.entry_time_]
           | none => [])
        | none => []
      let r1 :=
        match findState m cid with
        | some st =>
          (match st.checkTimeout now with
           | some tgt =>
             let t := transitionTo m tgt now
             (t.2.1, t.2.2)
           | none => (m, ([] : List TraceEv)))
        | none => (m, [])
      let r2 := processEvents r1.1 now
      (r2.1, tr0 ++ r1.2 ++ r2.2)

/-- `AppStateMachine::postEvent`. -/
def postEvent (m : Machine) (e : SMEvent) : Machine :=
  { m with event_queue_ := m.event_queue_ ++ [e] }

/-! ## Derived descriptions of the wire frame (proved equal to the code's
output below) -/

/-- The first 8 bytes of the frame `serializeBytes` produces: the first
`PROTOCOL_HEADER_SIZE` bytes of the encoded 10-byte header, which is all of
it that survives the payload copy at offset 8. -/
def header8 (m : ProtocolMessage) : List Nat :=
  [PROTOCOL_MAGIC, PROTOCOL_VERSION, m.type_ % 256, m.flags_ % 256,
   m.payload_.length % 65536 % 256, ((m.payload_.length % 65536) >>> 8) % 256,
   m.timestamp_ % 256, (m.timestamp_ >>> 8) % 256]

/-- The CRC the code stores: over `header8 ++ payload`. -/
def frameCRC (m : ProtocolMessage) : Nat :=
  calculateCRC16 (header8 m ++ m.payload_)

/-- The timestamp `deserialize` recovers from a frame produced by
`serialize`: its low 16 bits come from the original timestamp, its high 16
bits from whatever occupies frame offsets 8 and 9 (the first two payload
bytes, or CRC bytes for short payloads). -/
def rtTimestamp (m : ProtocolMessage) : Nat :=
  (m.timestamp_ % 256) ||| (((m.timestamp_ >>> 8) % 256) <<< 8) |||
  (m.serializeBytes.getD 8 0 <<< 16) ||| (m.serializeBytes.getD 9 0 <<< 24)

/-- The message `deserialize` recovers from `serializeBytes m`. -/
def rtMessage (m : ProtocolMessage) : ProtocolMessage :=
  { type_ := m.type_ % 256, flags_ := m.flags_ % 256,
    payload_ := m.payload_, timestamp_ := rtTimestamp m }

/-- The header `ProtocolHeader::decode` recovers from `serializeBytes m`
(for payload length ≤ `PROTOCOL_MAX_PAYLOAD_SIZE`). -/
def frameHeader (m : ProtocolMessage) : ProtocolHeader :=
  { magic := PROTOCOL_MAGIC, version := PROTOCOL_VERSION,
    type_ := m.type_ % 256, flags := m.flags_ % 256,
    payload_length := m.payload_.length, timestamp := rtTimestamp m }

/-- The parser state reached after feeding the first `j` bytes of the frame
`serializeBytes m` (payload length ≥ 2) into a parser that started in
`WAITING_MAGIC` at position 0 with buffer `B`, spare expected length `e0`
and spare header `h0`.  At `j = 10 + L` the frame is complete: the parser
has reset and the message has been emitted. -/
def parserAt (m : ProtocolMessage) (B : List Nat) (e0 : Nat) (h0 : ProtocolHeader)
    (j : Nat) : ProtocolParser :=
  let F := m.serializeBytes
  let L := m.payload_.length
  if j = 0 then ⟨.WAITING_MAGIC, B, 0, e0, h0⟩
  else if j ≤ 9 then ⟨.WAITING_HEADER, F.take j ++ B.drop j, j, 10, h0⟩
  else if j ≤ 9 + L then
    (if 8 + L ≤ j ∧ j ≠ 10 then
      ⟨.WAITING_CRC, F.take j ++ B.drop j, j, 10 + L, frameHeader m⟩
    else
      ⟨.WAITING_PAYLOAD, F.take j ++ B.drop j, j, 8 + L, frameHeader m⟩)
  else ⟨.WAITING_MAGIC, F ++ B.drop (10 + L), 0, 0, frameHeader m⟩

/-- The parser buffer after `k` leading garbage bytes of `g`: each
non-magic byte is written at position 0 and the position snaps back to 0,
so only the most recent garbage byte survives in the buffer. -/
def gbuf (B g : List Nat) (k : Nat) : List Nat :=
  if k = 0 then B else B.set 0 (g.getD (k - 1) 0)

/-- The parser trajectory over the stream `g ++ serializeBytes m` (`g`
all non-magic, payload length ≥ 2), started from a fresh `WAITING_MAGIC`
parser with buffer `B`: the state after consuming `k` bytes. -/
def streamAt (m : ProtocolMessage) (g B : List Nat) (k : Nat) : ProtocolParser :=
  if k ≤ g.length then ⟨.WAITING_MAGIC, gbuf B g k, 0, 0, header0⟩
  else parserAt m (gbuf B g g.length) 0 header0 (k - g.length)

/-- The safety invariant of the streaming parser: the write position stays
strictly below the buffer capacity, which equals
`PROTOCOL_MAX_MESSAGE_SIZE`. -/
def ParserInv (p : ProtocolParser) : Prop :=
  p.buffer_pos_ < PROTOCOL_MAX_MESSAGE_SIZE ∧
  p.buffer_.length = PROTOCOL_MAX_MESSAGE_SIZE

/-! ## Concrete instances used in the closed theorems -/

/-- A PING message whose timestamp (65536) exceeds 16 bits. -/
def msgPing : ProtocolMessage := { type_ := 3, flags_ := 0, payload_ := [], timestamp_ := 65536 }

/-- A TEXT message with payload "hello". -/
def msgText : ProtocolMessage :=
  { type_ := 16, flags_ := 0, payload_ := [104, 101, 108, 108, 111], timestamp_ := 305419896 }

/-- A machine with two registered states (READY with actions 10/11,
VOICE_INPUT with actions 20/21), currently in READY, with a global
on-change callback. -/
def stREADY : SMState :=
  { mkState AppState.READY with entry_action_ := some 10, exit_action_ := some 11 }

def stVOICE : SMState :=
  { mkState AppState.VOICE_INPUT with entry_action_ := some 20, exit_action_ := some 21 }

def machW : Machine :=
  { states_ := [(AppState.READY, stREADY), (AppState.VOICE_INPUT, stVOICE)]
    current_state_id_ := AppState.READY
    previous_state_id_ := AppState.BOOT
    current_state_ := some AppState.READY
    event_queue_ := []
    on_state_change_ := some 99
    transitioning_ := false }

/-- A machine with a 30000 ms timeout on READY targeting ERROR_STATE. -/
def stTimeoutReady : SMState :=
  { mkState AppState.READY with
      timeout_ms_ := 30000
      timeout_state_ := AppState.ERROR_STATE
      entry_time_ := 1000 }

def machT : Machine :=
  { states_ := [(AppState.READY, stTimeoutReady), (AppState.ERROR_STATE, mkState AppState.ERROR_STATE)]
    current_state_id_ := AppState.READY
    previous_state_id_ := AppState.BOOT
    current_state_ := some AppState.READY
    event_queue_ := []
    on_state_change_ := none
    transitioning_ := false }

/-- The VAD configuration of the spec scenario: threshold 500, debounce
200 ms, hangover 500 ms. -/
def cfgW : VadConfig := ⟨500, 200, 500⟩

/-- A VAD mid-stream: voice currently active, one `VOICE_DETECTED` already
delivered through the callback. -/
def vadActive : VadM :=
  ⟨.VOICE_ACTIVE, 0, 0, 3, 1, [AudioEvent.VOICE_DETECTED]⟩

/-! # Theorems -/

/-! ## Arithmetic helpers -/

theorem sub32_eq_sub {a b : Nat} (hba : b ≤ a) (ha : a < 4294967296) :
    sub32 a b = a - b := by
  unfold sub32
  omega

/-- Recombining a little-endian byte pair: for `v < 2^16`,
`(v % 256) ||| (((v >>> 8) % 256) <<< 8) = v`. -/
theorem lor_pair {v : Nat} (hv : v < 65536) :
    v % 256 ||| ((v >>> 8) % 256) <<< 8 = v := by
  have h256 : (256 : Nat) = 2 ^ 8 := by norm_num
  apply Nat.eq_of_testBit_eq
  intro i
  rw [h256]
  simp only [Nat.testBit_or, Nat.testBit_shiftLeft, Nat.testBit_mod_two_pow,
    Nat.testBit_shiftRight]
  by_cases h1 : i < 8
  · have h2 : ¬ (8 ≤ i) := by omega
    simp [h1, h2]
  · by_cases h3 : i < 16
    · have h4 : 8 ≤ i := by omega
      have h5 : i - 8 < 8 := by omega
      have h6 : 8 + (i - 8) = i := by omega
      simp [h1, h4, h5, h6]
    · have hvi : v.testBit i = false := by
        apply Nat.testBit_lt_two_pow
        calc v < 65536 := hv
          _ = 2 ^ 16 := by norm_num
          _ ≤ 2 ^ i := Nat.pow_le_pow_right (by norm_num) (by omega)
      have h4 : 8 ≤ i := by omega
      have h5 : ¬ (i - 8 < 8) := by omega
      simp [h1, h4, h5, hvi]

theorem crc16_update_lt (c b : Nat) : crc16_update c b < 65536 := by
  unfold crc16_update
  exact Nat.mod_lt _ (by norm_num)

theorem calculateCRC16_lt (l : List Nat) : calculateCRC16 l < 65536 := by
  have key : ∀ (l' : List Nat) (c : Nat), c < 65536 → l'.foldl crc16_update c < 65536 := by
    intro l'
    induction l' with
    | nil => intro c hc; simpa using hc
    | cons b rest ih =>
      intro c _
      simpa using ih (crc16_update c b) (crc16_update_lt c b)
  exact key _ 0xFFFF (by norm_num)

/-! ## Frame layout -/

theorem listWrite_length {buf data : List Nat} {pos : Nat}
    (h : pos + data.length ≤ buf.length) :
    (listWrite buf pos data).length = buf.length := by
  unfold listWrite
  simp only [List.length_append, List.length_take, List.length_drop]
  omega

theorem drop_append_big {α : Type} (A X : List α) (k : Nat) (h : A.length ≤ k) :
    (A ++ X).drop k = X.drop (k - A.length) := by
  rw [List.drop_append_eq_append_drop, List.drop_eq_nil_of_le h, List.nil_append]

theorem header8_length (m : ProtocolMessage) : (header8 m).length = 8 := by
  simp [header8]

/-- The byte image `serialize` produces is an 8-byte header prefix, the
payload at offset 8, and the CRC (computed over the first
`8 + payload_length` bytes) in the final two bytes. -/
theorem serializeBytes_eq (m : ProtocolMessage) :
    m.serializeBytes =
      header8 m ++ m.payload_ ++ [frameCRC m % 256, (frameCRC m >>> 8) % 256] := by
  have hhdr : (serializeHeader m).encodeBytes
      = header8 m ++ [(m.timestamp_ >>> 16) % 256, (m.timestamp_ >>> 24) % 256] := by
    simp [serializeHeader, ProtocolHeader.encodeBytes, header8, PROTOCOL_MAGIC, PROTOCOL_VERSION]
  unfold ProtocolMessage.serializeBytes
  simp only [ProtocolMessage.getTotalSize, PROTOCOL_HEADER_SIZE, PROTOCOL_FOOTER_SIZE]
  rw [hhdr]
  have hbuf1 : listWrite (List.replicate (8 + m.payload_.length + 2) 0) 0
      (header8 m ++ [(m.timestamp_ >>> 16) % 256, (m.timestamp_ >>> 24) % 256])
      = header8 m ++ ([(m.timestamp_ >>> 16) % 256, (m.timestamp_ >>> 24) % 256]
        ++ List.replicate m.payload_.length 0) := by
    unfold listWrite
    rw [List.take_zero, List.nil_append]
    have hrepl : List.replicate (8 + m.payload_.length + 2) (0 : Nat)
        = List.replicate 10 (0 : Nat) ++ List.replicate m.payload_.length (0 : Nat) := by
      rw [List.append_replicate_replicate]
      congr 1
      omega
    rw [hrepl]
    rw [List.drop_left' (by simp [header8])]
    rw [List.append_assoc]
  rw [hbuf1]
  have hcrc : calculateCRC16 (header8 m ++ m.payload_) = frameCRC m := rfl
  by_cases hL : 0 < m.payload_.length
  · rw [if_pos hL]
    have hbuf2 : listWrite (header8 m ++ ([(m.timestamp_ >>> 16) % 256,
        (m.timestamp_ >>> 24) % 256] ++ List.replicate m.payload_.length 0)) 8 m.payload_
        = (header8 m ++ m.payload_) ++ (([(m.timestamp_ >>> 16) % 256,
          (m.timestamp_ >>> 24) % 256] ++ List.replicate m.payload_.length 0).drop
            (8 + m.payload_.length - (header8 m).length)) := by
      unfold listWrite
      rw [List.take_append_of_le_length (by simp [header8])]
      rw [List.take_of_length_le (by simp [header8])]
      rw [drop_append_big _ _ _ (by simp [header8] <;> omega)]
    rw [hbuf2]
    have htake : List.take (8 + m.payload_.length) (header8 m ++ m.payload_ ++
        List.drop (8 + m.payload_.length - (header8 m).length)
          ([(m.timestamp_ >>> 16) % 256, (m.timestamp_ >>> 24) % 256]
            ++ List.replicate m.payload_.length 0))
        = header8 m ++ m.payload_ :=
      List.take_left' (by simp [header8] <;> omega)
    unfold listWrite
    rw [htake]
    rw [hcrc]
    have hdrop : List.drop (8 + m.payload_.length +
        ([frameCRC m % 256, (frameCRC m >>> 8) % 256] : List Nat).length)
        (header8 m ++ m.payload_ ++
          List.drop (8 + m.payload_.length - (header8 m).length)
            ([(m.timestamp_ >>> 16) % 256, (m.timestamp_ >>> 24) % 256]
              ++ List.replicate m.payload_.length 0)) = [] := by
      apply List.drop_eq_nil_of_le
      simp [header8] <;> omega
    rw [hdrop]
    rw [List.append_nil]
  · rw [if_neg hL]
    have hpay : m.payload_ = [] := List.length_eq_zero.mp (by omega)
    rw [hpay]
    simp only [List.length_nil, List.replicate_zero, List.append_nil, Nat.add_zero]
    unfold listWrite
    rw [List.take_append_of_le_length (by simp [header8])]
    rw [List.take_of_length_le (by simp [header8])]
    have hcrc0 : calculateCRC16 (header8 m) = frameCRC m := by
      unfold frameCRC
      rw [hpay, List.append_nil]
    rw [hcrc0]
    rw [List.drop_eq_nil_of_le (by simp [header8])]
    simp

theorem serializeBytes_length (m : ProtocolMessage) :
    m.serializeBytes.length = 10 + m.payload_.length := by
  rw [serializeBytes_eq]
  simp [header8]
  omega

/-! ## Round trip -/

theorem serializeBytes_getD_lt8 (m : ProtocolMessage) (k : Nat) (hk : k < 8) :
    m.serializeBytes.getD k 0 = (header8 m).getD k 0 := by
  rw [serializeBytes_eq, List.append_assoc]
  exact List.getD_append _ _ _ _ (by simp [header8]; omega)

theorem frameCRC_lt (m : ProtocolMessage) : frameCRC m < 65536 :=
  calculateCRC16_lt _

/-- Decoding the first ten bytes of a frame produced by `serialize`
recovers `frameHeader m` — from any buffer that agrees with the frame on
those ten bytes. -/
theorem headerDecode_ext (m : ProtocolMessage) (X : List Nat)
    (hL : m.payload_.length ≤ PROTOCOL_MAX_PAYLOAD_SIZE)
    (hpre : ∀ k, k < 10 → X.getD k 0 = m.serializeBytes.getD k 0) :
    headerDecode X = some (frameHeader m) := by
  have h0 := hpre 0 (by norm_num)
  have h1 := hpre 1 (by norm_num)
  have h2 := hpre 2 (by norm_num)
  have h3 := hpre 3 (by norm_num)
  have h4 := hpre 4 (by norm_num)
  have h5 := hpre 5 (by norm_num)
  have h6 := hpre 6 (by norm_num)
  have h7 := hpre 7 (by norm_num)
  have h8 := hpre 8 (by norm_num)
  have h9 := hpre 9 (by norm_num)
  rw [serializeBytes_getD_lt8 m 0 (by norm_num)] at h0
  rw [serializeBytes_getD_lt8 m 1 (by norm_num)] at h1
  rw [serializeBytes_getD_lt8 m 2 (by norm_num)] at h2
  rw [serializeBytes_getD_lt8 m 3 (by norm_num)] at h3
  rw [serializeBytes_getD_lt8 m 4 (by norm_num)] at h4
  rw [serializeBytes_getD_lt8 m 5 (by norm_num)] at h5
  rw [serializeBytes_getD_lt8 m 6 (by norm_num)] at h6
  rw [serializeBytes_getD_lt8 m 7 (by norm_num)] at h7
  simp only [header8, List.getD_cons_zero, List.getD_cons_succ] at h0 h1 h2 h3 h4 h5 h6 h7
  have hPL : X.getD 4 0 ||| X.getD 5 0 <<< 8 = m.payload_.length := by
    rw [h4, h5]
    rw [lor_pair (Nat.mod_lt _ (by norm_num))]
    exact Nat.mod_eq_of_lt (by
      have : PROTOCOL_MAX_PAYLOAD_SIZE = 8192 := rfl
      omega)
  have hTS : X.getD 6 0 ||| X.getD 7 0 <<< 8 ||| X.getD 8 0 <<< 16 ||| X.getD 9 0 <<< 24
      = rtTimestamp m := by
    rw [h6, h7, h8, h9]
    rfl
  unfold headerDecode
  rw [h0, h1, h2, h3, hPL, hTS]
  rw [if_pos ⟨rfl, rfl⟩]
  rfl

/-- `deserialize` succeeds on the output of `serialize` and recovers the
kind, the flags and the payload; the timestamp it recovers is
`rtTimestamp m`. -/
theorem deserialize_serializeBytes (m : ProtocolMessage)
    (hL : m.payload_.length ≤ PROTOCOL_MAX_PAYLOAD_SIZE) :
    deserialize m.serializeBytes = some (rtMessage m) := by
  have hlen := serializeBytes_length m
  have hdec := headerDecode_ext m m.serializeBytes hL (fun k _ => rfl)
  have hc0 : m.serializeBytes.getD (PROTOCOL_HEADER_SIZE + m.payload_.length) 0
      = frameCRC m % 256 := by
    rw [serializeBytes_eq]
    rw [List.getD_append_right _ _ _ _ (by simp [header8, PROTOCOL_HEADER_SIZE] <;> omega)]
    have hix : PROTOCOL_HEADER_SIZE + m.payload_.length
        - (header8 m ++ m.payload_).length = 0 := by
      simp [header8, PROTOCOL_HEADER_SIZE] <;> omega
    rw [hix]
    rfl
  have hc1 : m.serializeBytes.getD (PROTOCOL_HEADER_SIZE + m.payload_.length + 1) 0
      = (frameCRC m >>> 8) % 256 := by
    rw [serializeBytes_eq]
    rw [List.getD_append_right _ _ _ _ (by simp [header8, PROTOCOL_HEADER_SIZE] <;> omega)]
    have hix : PROTOCOL_HEADER_SIZE + m.payload_.length + 1
        - (header8 m ++ m.payload_).length = 1 := by
      simp [header8, PROTOCOL_HEADER_SIZE] <;> omega
    rw [hix]
    rfl
  have htk : m.serializeBytes.take (PROTOCOL_HEADER_SIZE + m.payload_.length)
      = header8 m ++ m.payload_ := by
    rw [serializeBytes_eq]
    exact List.take_left' (by simp [header8, PROTOCOL_HEADER_SIZE] <;> omega)
  have hdr8 : m.serializeBytes.drop PROTOCOL_HEADER_SIZE
      = m.payload_ ++ [frameCRC m % 256, (frameCRC m >>> 8) % 256] := by
    rw [serializeBytes_eq, List.append_assoc]
    exact List.drop_left' (header8_length m)
  unfold deserialize
  rw [hdec]
  simp only [frameHeader]
  rw [if_neg (by rw [hlen]; simp [PROTOCOL_HEADER_SIZE, PROTOCOL_FOOTER_SIZE] <;> omega)]
  rw [if_neg (by rw [hlen]; simp [PROTOCOL_HEADER_SIZE, PROTOCOL_FOOTER_SIZE] <;> omega)]
  rw [hc0, hc1, htk]
  rw [lor_pair (frameCRC_lt m)]
  have hcrceq : calculateCRC16 (header8 m ++ m.payload_) = frameCRC m := rfl
  rw [hcrceq]
  rw [if_neg (by simp)]
  by_cases hP : 0 < m.payload_.length
  · rw [if_pos hP]
    rw [hdr8]
    rw [List.take_left]
    unfold ProtocolMessage.setPayload
    rw [List.take_of_length_le (by
      have : PROTOCOL_MAX_PAYLOAD_SIZE = 8192 := rfl
      omega)]
    rfl
  · rw [if_neg hP]
    have hpay : m.payload_ = [] := List.length_eq_zero.mp (by omega)
    unfold rtMessage
    rw [hpay]

/-- `serialize` succeeds whenever the caller's buffer is large enough. -/
theorem serialize_eq_some (m : ProtocolMessage) (bs : Nat)
    (h : m.getTotalSize ≤ bs) :
    m.serialize bs = some m.serializeBytes := by
  unfold ProtocolMessage.serialize
  rw [if_neg (by omega)]

/-! ## Parser safety (C9 support) -/

theorem feedByte_inv (p : ProtocolParser) (b : Nat) (h : ParserInv p) :
    ParserInv (feedByte p b).1 ∧
      (p.buffer_pos_ + 1 = PROTOCOL_MAX_MESSAGE_SIZE → (feedByte p b).1.buffer_pos_ = 0) := by
  obtain ⟨st, buf, pos, el, ch⟩ := p
  obtain ⟨hpos, hlen⟩ := h
  simp only [ParserInv] at *
  have hMAX : PROTOCOL_MAX_MESSAGE_SIZE = 8202 := rfl
  unfold feedByte
  cases st <;>
    simp only [ProtocolParser.reset, List.length_set] <;>
    constructor <;>
    [skip; skip; skip; skip; skip; skip; skip; skip; skip; skip] <;>
    first
      | (intro htrig
         repeat' split
         all_goals simp_all
         all_goals omega)
      | (repeat' split
         all_goals simp_all
         all_goals omega)

theorem feed_inv : ∀ (data : List Nat) (p : ProtocolParser),
    ParserInv p → ParserInv (feed p data).1 := by
  intro data
  induction data with
  | nil => intro p h; exact h
  | cons b rest ih =>
    intro p h
    unfold feed
    have hfb := (feedByte_inv p b h).1
    cases hr : feedByte p b with
    | mk p' r =>
      rw [hr] at hfb
      cases r with
      | some msg => exact hfb
      | none => exact ih p' hfb

theorem initParser_inv : ParserInv initParser := by
  constructor
  · norm_num [initParser, PROTOCOL_MAX_MESSAGE_SIZE, PROTOCOL_HEADER_SIZE,
      PROTOCOL_FOOTER_SIZE, PROTOCOL_MAX_PAYLOAD_SIZE]
  · simp [initParser]

/-! ## State machine support -/

theorem transitionTo_transitioning (m : Machine) (target : AppState) (now : Nat)
    (ht : m.transitioning_ = true) :
    transitionTo m target now = (false, m, []) := by
  unfold transitionTo
  rw [if_pos ht]

theorem transitionTo_unregistered (m : Machine) (target : AppState) (now : Nat)
    (hf : findState m target = none) (hne : target ≠ m.current_state_id_) :
    transitionTo m target now = (false, m, []) := by
  unfold transitionTo
  by_cases htr : m.transitioning_
  · rw [if_pos htr]
  · rw [if_neg htr, if_neg hne, hf]

theorem transitionTo_same (m : Machine) (now : Nat)
    (htr : m.transitioning_ = false) :
    transitionTo m m.current_state_id_ now = (true, m, []) := by
  unfold transitionTo
  rw [htr]
  rw [if_neg (by simp)]
  rw [if_pos rfl]

theorem find?_update_key (l : List (AppState × SMState)) (id : AppState)
    (f : SMState → SMState) :
    (l.map (fun p => if p.1 = id then (p.1, f p.2) else p)).find?
        (fun p => p.1 = id)
      = (l.find? (fun p => p.1 = id)).map (fun p => (p.1, f p.2)) := by
  induction l with
  | nil => rfl
  | cons x xs ih =>
    by_cases hx : x.1 = id
    · simp only [List.map_cons, if_pos hx]
      rw [List.find?_cons_of_pos _ (by simp [hx]), List.find?_cons_of_pos _ (by simp [hx])]
      simp
    · simp only [List.map_cons, if_neg hx]
      rw [List.find?_cons_of_neg _ (by simp [hx]), List.find?_cons_of_neg _ (by simp [hx])]
      exact ih

theorem findState_updStates_self (m : Machine) (id : AppState)
    (f : SMState → SMState) :
    findState (updStates m id f) id = (findState m id).map f := by
  unfold findState updStates
  simp only
  rw [find?_update_key]
  cases m.states_.find? (fun p => p.1 = id) <;> rfl

/-- Full characterization of a successful `transitionTo`: the boolean
result, the machine after the call, and the exact callback trace. -/
theorem transitionTo_success (m : Machine) (target : AppState) (now : Nat)
    (tst : SMState)
    (htr : m.transitioning_ = false)
    (hne : target ≠ m.current_state_id_)
    (htst : findState m target = some tst) :
    transitionTo m target now =
      (true,
       { updStates m target
          (fun s => { s with entry_time_ := now, last_activity_time_ := now }) with
           previous_state_id_ := m.current_state_id_
           current_state_id_ := target
           current_state_ := some target
           transitioning_ := false },
       (match m.current_state_ with
        | some cid =>
          (match findState m cid with
           | some cst =>
             (match cst.exit_action_ with
              | some a => [TraceEv.act a m.current_state_id_ m.previous_state_id_ cst.entry_time_]
              | none => [])
           | none => [])
        | none => []) ++
       (match tst.entry_action_ with
        | some a => [TraceEv.act a target m.current_state_id_ now]
        | none => []) ++
       (match m.on_state_change_ with
        | some cb => [TraceEv.change cb m.current_state_id_ target]
        | none => [])) := by
  unfold transitionTo
  rw [if_neg (by simp [htr])]
  rw [if_neg hne]
  rw [htst]
  obtain ⟨sts, cid0, pid0, cs0, q0, cb0, tr0⟩ := m
  simp only at htr hne htst ⊢
  subst htr
  simp only [onExitM, onEntryM, updStates, findState]
  simp only [findState] at htst
  cases cs0 with
  | none =>
    cases he : tst.entry_action_ <;> cases cb0 <;> simp [htst, he]
  | some cid =>
    cases hfs : Option.map Prod.snd (List.find? (fun p => decide (p.1 = cid)) sts) with
    | none =>
      simp only [hfs]
      cases he : tst.entry_action_ <;> cases cb0 <;> simp [htst, he]
    | some cst =>
      simp only [hfs]
      cases hx : cst.exit_action_ <;> cases he : tst.entry_action_ <;> cases cb0 <;>
        simp [htst, hx, he]

/-! ## Claim theorems: protocol codec -/

/-- C1 (code bug): the round-trip law fails on the code.  Serializing the
PING message with timestamp 65536 and deserializing the produced bytes
succeeds but returns timestamp 1756168192: the high 16 timestamp bits are
clobbered because `serialize` places the payload (here: the CRC) at offset
`PROTOCOL_HEADER_SIZE` = 8, on top of timestamp bytes 2–3 of the 10-byte
encoded header. -/
theorem c1_roundtrip_timestamp_bug :
    msgPing.timestamp_ = 65536 ∧
    (msgPing.serialize 64).bind deserialize
      = some { type_ := 3, flags_ := 0, payload_ := [], timestamp_ := 1756168192 } ∧
    (1756168192 : Nat) ≠ 65536 := by
  refine ⟨rfl, by rfl, by norm_num⟩

/-- C2 (code bug): the frame layout the code produces.  For the 5-byte
payload "hello", `serialize` produces a frame of `8 + 5 + 2 = 15` bytes —
not the specified `10 + 5 + 2 = 17` — with the payload at offset 8
(overwriting the two high timestamp bytes the header encoder had written
at offsets 8–9) and the CRC over bytes `[0, 8+5)` in the final two
bytes. -/
theorem c2_frame_layout_bug :
    msgText.serialize 1000
      = some [79, 1, 16, 0, 5, 0, 120, 86, 104, 101, 108, 108, 111, 209, 187] ∧
    msgText.getTotalSize = 15 ∧ (15 : Nat) ≠ 10 + 5 + 2 := by
  refine ⟨by rfl, by rfl, by norm_num⟩

/-- C10: the payload-length invariant.  `setPayload` truncates any longer
input to exactly the first `PROTOCOL_MAX_PAYLOAD_SIZE` bytes, and
`deserialize` never produces a message whose payload exceeds
`PROTOCOL_MAX_PAYLOAD_SIZE`. -/
theorem c10_payload_invariant (m : ProtocolMessage) (data : List Nat)
    (buffer : List Nat) (m' : ProtocolMessage)
    (hd : deserialize buffer = some m') :
    (m.setPayload data).payload_.length ≤ PROTOCOL_MAX_PAYLOAD_SIZE ∧
    (PROTOCOL_MAX_PAYLOAD_SIZE < data.length →
      (m.setPayload data).payload_ = data.take PROTOCOL_MAX_PAYLOAD_SIZE ∧
      (m.setPayload data).payload_.length = PROTOCOL_MAX_PAYLOAD_SIZE) ∧
    m'.payload_.length ≤ PROTOCOL_MAX_PAYLOAD_SIZE := by
  refine ⟨?_, fun hgt => ⟨rfl, ?_⟩, ?_⟩
  · simp [ProtocolMessage.setPayload, List.length_take]
  · simp [ProtocolMessage.setPayload, List.length_take]
    omega
  · unfold deserialize at hd
    dsimp only at hd
    repeat' split at hd
    all_goals try (exfalso; exact Option.noConfusion hd)
    all_goals rw [Option.some.injEq] at hd
    all_goals subst hd
    all_goals simp only [ProtocolMessage.setPayload, List.length_take,
      PROTOCOL_MAX_PAYLOAD_SIZE, List.length_nil]
    all_goals omega

theorem c10_witness :
    (msgPing.setPayload (List.replicate 8193 1)).payload_.length
        = PROTOCOL_MAX_PAYLOAD_SIZE ∧
    (rtMessage msgPing).payload_.length ≤ PROTOCOL_MAX_PAYLOAD_SIZE := by
  have h := c10_payload_invariant msgPing (List.replicate 8193 1)
    msgPing.serializeBytes (rtMessage msgPing)
    (deserialize_serializeBytes msgPing (by norm_num [msgPing, PROTOCOL_MAX_PAYLOAD_SIZE]))
  exact ⟨(h.2.1 (by norm_num [PROTOCOL_MAX_PAYLOAD_SIZE])).2, h.2.2⟩

/-! ## Claim theorems: parser safety -/

/-- C9: whenever the accumulated bytes reach `PROTOCOL_MAX_MESSAGE_SIZE`
the parser resets; consequently the write position stays below the buffer
capacity after every byte (`ParserInv` is preserved by `feedByte` and
`feed` and holds initially), and every write into the fixed-size buffer
is in bounds (`buffer_pos_ < buffer_.length` at the write). -/
theorem c9_parser_buffer_safety :
    ParserInv initParser ∧
    (∀ (p : ProtocolParser) (b : Nat), ParserInv p →
      (ParserInv (feedByte p b).1 ∧
       p.buffer_pos_ < p.buffer_.length ∧
       (PROTOCOL_MAX_MESSAGE_SIZE ≤ p.buffer_pos_ + 1 →
         (feedByte p b).1.buffer_pos_ = 0))) ∧
    (∀ (p : ProtocolParser) (data : List Nat), ParserInv p →
      ParserInv (feed p data).1) := by
  refine ⟨initParser_inv, fun p b hp => ⟨(feedByte_inv p b hp).1, ?_, fun hle => ?_⟩,
    fun p data hp => feed_inv data p hp⟩
  · obtain ⟨h1, h2⟩ := hp
    omega
  · exact (feedByte_inv p b hp).2 (by obtain ⟨h1, h2⟩ := hp; omega)

theorem c9_witness :
    ParserInv (feedByte initParser 79).1 ∧ ParserInv (feed initParser [1, 2, 3]).1 := by
  have h := c9_parser_buffer_safety
  exact ⟨(h.2.1 initParser 79 h.1).1, h.2.2 initParser [1, 2, 3] h.1⟩

/-! ## Claim theorems: state machine -/

/-- C5 (amended): a successful transition to a different registered state
runs the exit action (observing the exited state), updates
previous/current, resets the entry timestamp, runs the entry action
(observing the new state and the fresh timestamp), and invokes the global
on-change callback, in that fixed order; a same-state `transitionTo` is a
success-reporting no-op; and a same-state `forceTransition` is likewise a
no-op (it merely delegates to `transitionTo`), contrary to the original
claim. -/
theorem c5_transition_order (m : Machine) (target : AppState) (now : Nat)
    (cid : AppState) (cst tst : SMState) (xa ea cb : Nat)
    (htr : m.transitioning_ = false)
    (hcur : m.current_state_ = some cid)
    (hcst : findState m cid = some cst)
    (hne : target ≠ m.current_state_id_)
    (htst : findState m target = some tst)
    (hxa : cst.exit_action_ = some xa)
    (hea : tst.entry_action_ = some ea)
    (hcb : m.on_state_change_ = some cb) :
    (transitionTo m target now).1 = true ∧
    (transitionTo m target now).2.2 =
      [TraceEv.act xa m.current_state_id_ m.previous_state_id_ cst.entry_time_,
       TraceEv.act ea target m.current_state_id_ now,
       TraceEv.change cb m.current_state_id_ target] ∧
    (transitionTo m target now).2.1.previous_state_id_ = m.current_state_id_ ∧
    (transitionTo m target now).2.1.current_state_id_ = target ∧
    (findState (transitionTo m target now).2.1 target).map SMState.entry_time_
      = some now ∧
    transitionTo m m.current_state_id_ now = (true, m, []) ∧
    forceTransition m m.current_state_id_ now = (m, []) := by
  have hT := transitionTo_success m target now tst htr hne htst
  refine ⟨by rw [hT], ?_, by rw [hT], by rw [hT], ?_, transitionTo_same m now htr, ?_⟩
  · rw [hT]
    simp [hcur, hcst, hxa, hea, hcb]
  · have hfs : findState (transitionTo m target now).2.1 target
        = (findState m target).map
          (fun s => { s with entry_time_ := now, last_activity_time_ := now }) := by
      rw [hT]
      dsimp only
      simp only [findState, updStates]
      have hk := find?_update_key m.states_ target
        (fun s => { s with entry_time_ := now, last_activity_time_ := now })
      rw [hk]
      cases List.find? (fun p => p.1 = target) m.states_ <;> rfl
    rw [hfs, htst]
    rfl
  · unfold forceTransition
    rw [transitionTo_same m now htr]

/-- C5 counterexample: `forceTransition` to the current state (READY,
which has both entry and exit actions configured) performs no action at
all and leaves the machine untouched, while the claim demands the full
exit/entry sequence. -/
theorem c5_counterexample :
    machW.current_state_id_ = AppState.READY ∧
    (findState machW AppState.READY).map SMState.exit_action_ = some (some 11) ∧
    forceTransition machW AppState.READY 500 = (machW, []) := by
  refine ⟨rfl, rfl, rfl⟩

theorem c5_witness :
    (transitionTo machW AppState.VOICE_INPUT 500).2.2 =
      [TraceEv.act 11 AppState.READY AppState.BOOT 0,
       TraceEv.act 20 AppState.VOICE_INPUT AppState.READY 500,
       TraceEv.change 99 AppState.READY AppState.VOICE_INPUT] ∧
    (transitionTo machW AppState.VOICE_INPUT 500).1 = true := by
  have h := c5_transition_order machW AppState.VOICE_INPUT 500 AppState.READY
    stREADY stVOICE 11 20 99 rfl rfl rfl (by decide) rfl rfl rfl rfl
  exact ⟨h.2.1, h.1⟩

/-- C8 (amended): `transitionTo` returns `false` and performs no mutation
and no action when a transition is already in progress (in particular for
a nested call made from within an entry or exit action, which runs with
the guard set), and when the target is not registered and differs from
the current state; an unregistered target equal to the current state is
instead a mutation-free no-op that reports success. -/
theorem c8_error_returns (m : Machine) (target : AppState) (now : Nat) :
    (m.transitioning_ = true → transitionTo m target now = (false, m, [])) ∧
    (findState m target = none → target ≠ m.current_state_id_ →
      transitionTo m target now = (false, m, [])) :=
  ⟨fun ht => transitionTo_transitioning m target now ht,
   fun hf hne => transitionTo_unregistered m target now hf hne⟩

/-- C8 counterexample: on the freshly constructed machine (no registered
states, current state BOOT) a `transitionTo` request for the unregistered
state BOOT returns `true`, not `false`, because the same-state early
return precedes the registration lookup. -/
theorem c8_counterexample :
    findState initMachine AppState.BOOT = none ∧
    transitionTo initMachine AppState.BOOT 0 = (true, initMachine, []) :=
  ⟨rfl, rfl⟩

theorem c8_witness :
    transitionTo { machW with transitioning_ := true } AppState.VOICE_INPUT 7
        = (false, { machW with transitioning_ := true }, []) ∧
    transitionTo machW AppState.ANCIENT_MODE 7 = (false, machW, []) := by
  have h1 := (c8_error_returns { machW with transitioning_ := true }
    AppState.VOICE_INPUT 7).1 rfl
  have h2 := (c8_error_returns machW AppState.ANCIENT_MODE 7).2 rfl (by decide)
  exact ⟨h1, h2⟩

/-- C6: for a state with a positive timeout whose declared (registered,
distinct) timeout target, with no pending events, `update` transitions to
the timeout target exactly when at least `timeout_ms_` milliseconds have
elapsed since state entry, and leaves the machine completely unchanged
while strictly less time has elapsed. -/
theorem c6_state_timeout (m : Machine) (cid tgt : AppState) (st tst : SMState)
    (now : Nat)
    (hcur : m.current_state_ = some cid)
    (hfind : findState m cid = some st)
    (htr : m.transitioning_ = false)
    (hq : m.event_queue_ = [])
    (hT : 0 < st.timeout_ms_)
    (htgt : st.timeout_state_ = tgt)
    (htstf : findState m tgt = some tst)
    (hne : tgt ≠ m.current_state_id_)
    (hent : st.entry_time_ ≤ now)
    (hnow : now < 4294967296) :
    (st.timeout_ms_ ≤ now - st.entry_time_ →
      (m.update now).1.current_state_id_ = tgt ∧
      (m.update now).1.previous_state_id_ = m.current_state_id_) ∧
    (now - st.entry_time_ < st.timeout_ms_ → (m.update now).1 = m) := by
  have hsub : sub32 now st.entry_time_ = now - st.entry_time_ := sub32_eq_sub hent hnow
  have hchk : st.checkTimeout now =
      (if 0 < st.timeout_ms_ ∧ st.timeout_ms_ ≤ now - st.entry_time_ then
        some st.timeout_state_ else none) := by
    unfold SMState.checkTimeout
    rw [hsub]
  unfold Machine.update
  simp only [hcur]
  rw [if_neg (by simp [htr])]
  simp only [hfind]
  rw [hchk, htgt]
  constructor
  · intro hge
    rw [if_pos ⟨hT, hge⟩]
    dsimp only
    rw [transitionTo_success m tgt now tst htr hne htstf]
    constructor <;> simp [processEvents, processEventsAux, updStates, hq]
  · intro hlt
    rw [if_neg (by omega)]
    simp [processEvents, processEventsAux, hq]

theorem c6_witness :
    (machT.update 40000).1.current_state_id_ = AppState.ERROR_STATE ∧
    (machT.update 5000).1 = machT := by
  have h1 := c6_state_timeout machT AppState.READY AppState.ERROR_STATE
    stTimeoutReady (mkState AppState.ERROR_STATE) 40000 rfl rfl rfl rfl
    (by norm_num [stTimeoutReady, mkState]) rfl rfl (by decide)
    (by norm_num [stTimeoutReady, mkState]) (by norm_num)
  have h2 := c6_state_timeout machT AppState.READY AppState.ERROR_STATE
    stTimeoutReady (mkState AppState.ERROR_STATE) 5000 rfl rfl rfl rfl
    (by norm_num [stTimeoutReady, mkState]) rfl rfl (by decide)
    (by norm_num [stTimeoutReady, mkState]) (by norm_num)
  exact ⟨(h1.1 (by norm_num [stTimeoutReady, mkState])).1,
    h2.2 (by norm_num [stTimeoutReady, mkState])⟩

/-! ## Parser resynchronization (C7 support) -/

theorem getD_set_zero (B : List Nat) (b : Nat) (hB : 0 < B.length) :
    (B.set 0 b).getD 0 0 = b := by
  cases B with
  | nil => simp at hB
  | cons c t => rfl

theorem set_take_drop (F B : List Nat) (j : Nat) (hjF : j < F.length) (hjB : j < B.length) :
    (F.take j ++ B.drop j).set j (F.getD j 0) = F.take (j + 1) ++ B.drop (j + 1) := by
  have hlen : (F.take j).length = j := by
    rw [List.length_take]
    omega
  have htk : F.take (j + 1) = F.take j ++ [F[j]] := by
    rw [List.take_succ, List.getElem?_eq_getElem hjF]
    rfl
  rw [List.set_append, if_neg (by omega), hlen, Nat.sub_self]
  rw [List.drop_eq_getElem_cons hjB, List.set_cons_zero]
  rw [List.getD_eq_getElem F 0 hjF]
  rw [htk, List.append_assoc]
  rfl

theorem feedByte_magic_hit (B : List Nat) (e : Nat) (h : ProtocolHeader)
    (hB : 0 < B.length) :
    feedByte ⟨.WAITING_MAGIC, B, 0, e, h⟩ PROTOCOL_MAGIC =
      (⟨.WAITING_HEADER, B.set 0 PROTOCOL_MAGIC, 1, 10, h⟩, none) := by
  unfold feedByte
  dsimp only
  rw [getD_set_zero B _ hB]
  rw [if_pos rfl]
  rw [if_neg (by decide)]

theorem feedByte_magic_miss (B : List Nat) (e : Nat) (h : ProtocolHeader) (b : Nat)
    (hB : 0 < B.length) (hb : ¬ b = PROTOCOL_MAGIC) :
    feedByte ⟨.WAITING_MAGIC, B, 0, e, h⟩ b =
      (⟨.WAITING_MAGIC, B.set 0 b, 0, e, h⟩, none) := by
  unfold feedByte
  dsimp only
  rw [getD_set_zero B _ hB]
  rw [if_neg hb]
  rw [if_neg (by decide)]

theorem feedByte_header_wait (B : List Nat) (pos : Nat) (h : ProtocolHeader) (b : Nat)
    (hlt : pos + 1 < 10) :
    feedByte ⟨.WAITING_HEADER, B, pos, 10, h⟩ b =
      (⟨.WAITING_HEADER, B.set pos b, pos + 1, 10, h⟩, none) := by
  have hM : PROTOCOL_MAX_MESSAGE_SIZE = 8202 := rfl
  unfold feedByte
  dsimp only
  rw [if_neg (by omega)]
  rw [if_neg (by omega)]

theorem feedByte_header_full (B : List Nat) (h h' : ProtocolHeader) (b pl : Nat)
    (hdec : headerDecode (B.set 9 b) = some h') (hpl : h'.payload_length = pl)
    (hpos : 0 < pl) :
    feedByte ⟨.WAITING_HEADER, B, 9, 10, h⟩ b =
      (⟨.WAITING_PAYLOAD, B.set 9 b, 10, 8 + pl, h'⟩, none) := by
  have hM : PROTOCOL_MAX_MESSAGE_SIZE = 8202 := rfl
  have hH : PROTOCOL_HEADER_SIZE = 8 := rfl
  unfold feedByte
  dsimp only
  rw [if_pos (by omega)]
  rw [hdec]
  dsimp only
  rw [hpl]
  rw [if_pos hpos]
  rw [if_neg (by omega)]
  rw [hH]

theorem feedByte_payload_wait (B : List Nat) (pos pl : Nat) (h : ProtocolHeader) (b : Nat)
    (hlt : pos + 1 < 8 + pl) (hov : pos + 1 < 8202) :
    feedByte ⟨.WAITING_PAYLOAD, B, pos, 8 + pl, h⟩ b =
      (⟨.WAITING_PAYLOAD, B.set pos b, pos + 1, 8 + pl, h⟩, none) := by
  have hM : PROTOCOL_MAX_MESSAGE_SIZE = 8202 := rfl
  unfold feedByte
  dsimp only
  rw [if_neg (by omega)]
  rw [if_neg (by omega)]

theorem feedByte_payload_full (B : List Nat) (pos pl : Nat) (h : ProtocolHeader) (b : Nat)
    (hpl : h.payload_length = pl)
    (hge : 8 + pl ≤ pos + 1) (hov : pos + 1 < 8202) :
    feedByte ⟨.WAITING_PAYLOAD, B, pos, 8 + pl, h⟩ b =
      (⟨.WAITING_CRC, B.set pos b, pos + 1, 8 + pl + 2, h⟩, none) := by
  have hM : PROTOCOL_MAX_MESSAGE_SIZE = 8202 := rfl
  have hH : PROTOCOL_HEADER_SIZE = 8 := rfl
  have hF : PROTOCOL_FOOTER_SIZE = 2 := rfl
  unfold feedByte
  dsimp only
  rw [if_pos (by omega)]
  rw [if_neg (by omega)]
  rw [hH, hF, hpl]

theorem feedByte_crc_wait (B : List Nat) (pos e : Nat) (h : ProtocolHeader) (b : Nat)
    (hlt : pos + 1 < e) (hov : pos + 1 < 8202) :
    feedByte ⟨.WAITING_CRC, B, pos, e, h⟩ b =
      (⟨.WAITING_CRC, B.set pos b, pos + 1, e, h⟩, none) := by
  have hM : PROTOCOL_MAX_MESSAGE_SIZE = 8202 := rfl
  unfold feedByte
  dsimp only
  rw [if_neg (by omega)]
  rw [if_neg (by omega)]

theorem feedByte_crc_full (B : List Nat) (pos e : Nat) (h : ProtocolHeader) (b : Nat)
    (msg : ProtocolMessage) (hge : e ≤ pos + 1)
    (hdes : deserialize ((B.set pos b).take (pos + 1)) = some msg) :
    feedByte ⟨.WAITING_CRC, B, pos, e, h⟩ b =
      (⟨.WAITING_MAGIC, B.set pos b, 0, 0, h⟩, some msg) := by
  unfold feedByte
  dsimp only
  rw [if_pos (by omega)]
  rw [hdes]
  rfl

theorem gbuf_length (B g : List Nat) (k : Nat) : (gbuf B g k).length = B.length := by
  unfold gbuf
  split <;> simp

theorem gbuf_set (B g : List Nat) (k : Nat) :
    (gbuf B g k).set 0 (g.getD k 0) = gbuf B g (k + 1) := by
  have h1 : k + 1 - 1 = k := by omega
  have h2 : gbuf B g (k + 1) = B.set 0 (g.getD k 0) := by
    unfold gbuf
    rw [if_neg (by omega), h1]
  rw [h2]
  unfold gbuf
  rcases Nat.eq_zero_or_pos k with h0 | hpos
  · subst h0
    rw [if_pos rfl]
  · rw [if_neg (by omega), List.set_set]


theorem parserAt_zero (m : ProtocolMessage) (B : List Nat) (e0 : Nat) (h0 : ProtocolHeader) :
    parserAt m B e0 h0 0 = ⟨.WAITING_MAGIC, B, 0, e0, h0⟩ := by
  unfold parserAt
  dsimp only
  rw [if_pos rfl]

theorem parserAt_hdr (m : ProtocolMessage) (B : List Nat) (e0 : Nat) (h0 : ProtocolHeader)
    (j : Nat) (h1 : 1 ≤ j) (h9 : j ≤ 9) :
    parserAt m B e0 h0 j =
      ⟨.WAITING_HEADER, m.serializeBytes.take j ++ B.drop j, j, 10, h0⟩ := by
  unfold parserAt
  dsimp only
  rw [if_neg (by omega), if_pos h9]

theorem parserAt_pay (m : ProtocolMessage) (B : List Nat) (e0 : Nat) (h0 : ProtocolHeader)
    (j : Nat) (h10 : 10 ≤ j) (h9L : j ≤ 9 + m.payload_.length)
    (hnc : ¬ (8 + m.payload_.length ≤ j ∧ j ≠ 10)) :
    parserAt m B e0 h0 j =
      ⟨.WAITING_PAYLOAD, m.serializeBytes.take j ++ B.drop j, j,
        8 + m.payload_.length, frameHeader m⟩ := by
  unfold parserAt
  dsimp only
  rw [if_neg (by omega), if_neg (by omega), if_pos h9L, if_neg hnc]

theorem parserAt_crc (m : ProtocolMessage) (B : List Nat) (e0 : Nat) (h0 : ProtocolHeader)
    (j : Nat) (hL2 : 2 ≤ m.payload_.length) (h9L : j ≤ 9 + m.payload_.length)
    (hc : 8 + m.payload_.length ≤ j ∧ j ≠ 10) :
    parserAt m B e0 h0 j =
      ⟨.WAITING_CRC, m.serializeBytes.take j ++ B.drop j, j,
        10 + m.payload_.length, frameHeader m⟩ := by
  unfold parserAt
  dsimp only
  rw [if_neg (by omega), if_neg (by omega), if_pos h9L, if_pos hc]

theorem parserAt_done (m : ProtocolMessage) (B : List Nat) (e0 : Nat) (h0 : ProtocolHeader)
    (j : Nat) (hj : 9 + m.payload_.length < j) :
    parserAt m B e0 h0 j =
      ⟨.WAITING_MAGIC, m.serializeBytes ++ B.drop (10 + m.payload_.length), 0, 0,
        frameHeader m⟩ := by
  unfold parserAt
  dsimp only
  rw [if_neg (by omega), if_neg (by omega), if_neg (by omega)]

theorem parserAt_step (m : ProtocolMessage) (B : List Nat) (e0 : Nat) (h0 : ProtocolHeader)
    (hB : B.length = PROTOCOL_MAX_MESSAGE_SIZE)
    (hL2 : 2 ≤ m.payload_.length) (hLmax : m.payload_.length ≤ PROTOCOL_MAX_PAYLOAD_SIZE)
    (j : Nat) (hj : j < 10 + m.payload_.length) :
    feedByte (parserAt m B e0 h0 j) (m.serializeBytes.getD j 0) =
      (parserAt m B e0 h0 (j + 1),
       if j + 1 = 10 + m.payload_.length then some (rtMessage m) else none) := by
  have hM : PROTOCOL_MAX_MESSAGE_SIZE = 8202 := rfl
  have hP8 : PROTOCOL_MAX_PAYLOAD_SIZE = 8192 := rfl
  have hFlen : m.serializeBytes.length = 10 + m.payload_.length := serializeBytes_length m
  have hBlen : B.length = 8202 := hB.trans hM
  have hL8 : m.payload_.length ≤ 8192 := by omega
  by_cases hj0 : j = 0
  · subst hj0
    have hb : m.serializeBytes.getD 0 0 = PROTOCOL_MAGIC := by
      rw [serializeBytes_getD_lt8 m 0 (by norm_num)]
      rfl
    rw [hb, parserAt_zero, parserAt_hdr m B e0 h0 1 (by omega) (by omega)]
    rw [feedByte_magic_hit B e0 h0 (by omega)]
    have hbuf : B.set 0 PROTOCOL_MAGIC = m.serializeBytes.take 1 ++ B.drop 1 := by
      have h := set_take_drop m.serializeBytes B 0 (by omega) (by omega)
      rw [hb] at h
      simpa using h
    rw [hbuf, if_neg (by omega)]
  · by_cases hj9 : j ≤ 8
    · rw [parserAt_hdr m B e0 h0 j (by omega) (by omega),
          parserAt_hdr m B e0 h0 (j + 1) (by omega) (by omega)]
      rw [feedByte_header_wait _ _ _ _ (by omega)]
      rw [set_take_drop m.serializeBytes B j (by omega) (by omega)]
      rw [if_neg (by omega)]
    · by_cases hj10 : j = 9
      · subst hj10
        have hbuf := set_take_drop m.serializeBytes B 9 (by omega) (by omega)
        have hdec : headerDecode
            ((m.serializeBytes.take 9 ++ B.drop 9).set 9 (m.serializeBytes.getD 9 0))
            = some (frameHeader m) := by
          rw [hbuf]
          apply headerDecode_ext m _ hLmax
          intro k hk
          rw [List.getD_append _ _ _ _ (by rw [List.length_take]; omega)]
          rw [List.getD_eq_getElem _ 0 (by rw [List.length_take]; omega)]
          rw [List.getElem_take]
          rw [List.getD_eq_getElem _ 0 (by omega)]
        rw [parserAt_hdr m B e0 h0 9 (by omega) (by omega)]
        rw [parserAt_pay m B e0 h0 10 (by omega) (by omega) (by omega)]
        rw [feedByte_header_full _ h0 (frameHeader m) _ m.payload_.length hdec rfl (by omega)]
        rw [hbuf, if_neg (by omega)]
      · have h10 : 10 ≤ j := by omega
        have h9L : j ≤ 9 + m.payload_.length := by omega
        by_cases hlast : j = 9 + m.payload_.length
        · subst hlast
          have he : 9 + m.payload_.length + 1 = 10 + m.payload_.length := by omega
          have hbuf := set_take_drop m.serializeBytes B (9 + m.payload_.length)
            (by omega) (by omega)
          rw [he] at hbuf
          rw [@List.take_of_length_le _ (10 + m.payload_.length) m.serializeBytes (by omega)]
            at hbuf
          have hdes : deserialize
              (((m.serializeBytes.take (9 + m.payload_.length) ++
                  B.drop (9 + m.payload_.length)).set (9 + m.payload_.length)
                  (m.serializeBytes.getD (9 + m.payload_.length) 0)).take
                (9 + m.payload_.length + 1)) = some (rtMessage m) := by
            rw [hbuf, he, List.take_left' hFlen]
            exact deserialize_serializeBytes m hLmax
          rw [parserAt_crc m B e0 h0 _ hL2 (by omega) ⟨by omega, by omega⟩]
          rw [parserAt_done m B e0 h0 _ (by omega)]
          rw [feedByte_crc_full _ _ _ _ _ (rtMessage m) (by omega) hdes]
          rw [hbuf]
          rw [if_pos (by omega)]
        · have hjl : j < 9 + m.payload_.length := by omega
          by_cases hsrc : 8 + m.payload_.length ≤ j ∧ j ≠ 10
          · rw [parserAt_crc m B e0 h0 j hL2 (by omega) hsrc]
            rw [parserAt_crc m B e0 h0 (j + 1) hL2 (by omega) ⟨by omega, by omega⟩]
            rw [feedByte_crc_wait _ _ _ _ _ (by omega) (by omega)]
            rw [set_take_drop m.serializeBytes B j (by omega) (by omega)]
            rw [if_neg (by omega)]
          · rw [parserAt_pay m B e0 h0 j (by omega) (by omega) hsrc]
            by_cases hfull : 8 + m.payload_.length ≤ j + 1
            · rw [parserAt_crc m B e0 h0 (j + 1) hL2 (by omega) ⟨hfull, by omega⟩]
              rw [feedByte_payload_full _ j m.payload_.length (frameHeader m) _ rfl hfull
                (by omega)]
              rw [set_take_drop m.serializeBytes B j (by omega) (by omega)]
              have ha : 8 + m.payload_.length + 2 = 10 + m.payload_.length := by omega
              rw [ha, if_neg (by omega)]
            · rw [parserAt_pay m B e0 h0 (j + 1) (by omega) (by omega) (by omega)]
              rw [feedByte_payload_wait _ j m.payload_.length (frameHeader m) _ (by omega)
                (by omega)]
              rw [set_take_drop m.serializeBytes B j (by omega) (by omega)]
              rw [if_neg (by omega)]


theorem streamAt_grb (m : ProtocolMessage) (g B : List Nat) (k : Nat) (hk : k ≤ g.length) :
    streamAt m g B k = ⟨.WAITING_MAGIC, gbuf B g k, 0, 0, header0⟩ := by
  unfold streamAt
  rw [if_pos hk]

theorem streamAt_frame (m : ProtocolMessage) (g B : List Nat) (j : Nat) :
    streamAt m g B (g.length + j) = parserAt m (gbuf B g g.length) 0 header0 j := by
  unfold streamAt
  rcases Nat.eq_zero_or_pos j with h0 | hpos
  · subst h0
    rw [if_pos (by omega), parserAt_zero]
    simp
  · rw [if_neg (by omega)]
    congr 1
    omega

theorem stream_step (m : ProtocolMessage) (g B : List Nat) (k : Nat)
    (hB : B.length = PROTOCOL_MAX_MESSAGE_SIZE)
    (hL2 : 2 ≤ m.payload_.length) (hLmax : m.payload_.length ≤ PROTOCOL_MAX_PAYLOAD_SIZE)
    (hg : ∀ b ∈ g, ¬ b = PROTOCOL_MAGIC)
    (hk : k < g.length + (10 + m.payload_.length)) :
    feedByte (streamAt m g B k) ((g ++ m.serializeBytes).getD k 0) =
      (streamAt m g B (k + 1),
       if k + 1 = g.length + (10 + m.payload_.length) then some (rtMessage m) else none) := by
  have hM : PROTOCOL_MAX_MESSAGE_SIZE = 8202 := rfl
  have hBlen : B.length = 8202 := hB.trans hM
  by_cases hkg : k < g.length
  · have hb : (g ++ m.serializeBytes).getD k 0 = g.getD k 0 :=
      List.getD_append _ _ _ _ hkg
    have hbm : ¬ g.getD k 0 = PROTOCOL_MAGIC := by
      rw [List.getD_eq_getElem g 0 hkg]
      exact hg _ (List.getElem_mem hkg)
    rw [hb, streamAt_grb m g B k (by omega), streamAt_grb m g B (k + 1) (by omega)]
    rw [feedByte_magic_miss _ _ _ _ (by rw [gbuf_length]; omega) hbm]
    rw [gbuf_set]
    rw [if_neg (by omega)]
  · obtain ⟨j, rfl⟩ : ∃ j, k = g.length + j := ⟨k - g.length, by omega⟩
    have hx : g.length + j - g.length = j := by omega
    have hb : (g ++ m.serializeBytes).getD (g.length + j) 0 = m.serializeBytes.getD j 0 := by
      rw [List.getD_append_right _ _ _ _ (by omega), hx]
    have hx1 : g.length + j + 1 = g.length + (j + 1) := by omega
    rw [hb, hx1, streamAt_frame m g B j, streamAt_frame m g B (j + 1)]
    rw [parserAt_step m (gbuf B g g.length) 0 header0 (by rw [gbuf_length]; exact hB)
      hL2 hLmax j (by omega)]
    by_cases hend : j + 1 = 10 + m.payload_.length
    · rw [if_pos hend, if_pos (by omega)]
    · rw [if_neg hend, if_neg (by omega)]

theorem stream_run (m : ProtocolMessage) (g B : List Nat)
    (hB : B.length = PROTOCOL_MAX_MESSAGE_SIZE)
    (hL2 : 2 ≤ m.payload_.length) (hLmax : m.payload_.length ≤ PROTOCOL_MAX_PAYLOAD_SIZE)
    (hg : ∀ b ∈ g, ¬ b = PROTOCOL_MAGIC) :
    ∀ (n k : Nat), k + n ≤ g.length + (10 + m.payload_.length) →
      feed (streamAt m g B k) (((g ++ m.serializeBytes).drop k).take n) =
        (streamAt m g B (k + n),
         if k < g.length + (10 + m.payload_.length) ∧
            k + n = g.length + (10 + m.payload_.length)
         then some (rtMessage m) else none) := by
  intro n
  induction n with
  | zero =>
    intro k hk
    rw [List.take_zero]
    simp only [feed]
    rw [Nat.add_zero]
    rw [if_neg (by omega)]
  | succ n ih =>
    intro k hk
    have hklt : k < (g ++ m.serializeBytes).length := by
      rw [List.length_append, serializeBytes_length]
      omega
    rw [List.drop_eq_getElem_cons hklt, List.take_succ_cons]
    rw [← List.getD_eq_getElem (g ++ m.serializeBytes) 0 hklt]
    simp only [feed]
    rw [stream_step m g B k hB hL2 hLmax hg (by omega)]
    by_cases hend : k + 1 = g.length + (10 + m.payload_.length)
    · rw [if_pos hend]
      have hn0 : n = 0 := by omega
      subst hn0
      rw [if_pos ⟨by omega, by omega⟩]
    · rw [if_neg hend]
      dsimp only
      rw [ih (k + 1) (by omega)]
      have hxx : k + 1 + n = k + (n + 1) := by omega
      rw [hxx]
      by_cases hE : k + (n + 1) = g.length + (10 + m.payload_.length)
      · rw [if_pos ⟨by omega, hE⟩, if_pos ⟨by omega, hE⟩]
      · rw [if_neg (by omega), if_neg (by omega)]

theorem chunks_run (m : ProtocolMessage) (g B : List Nat)
    (hB : B.length = PROTOCOL_MAX_MESSAGE_SIZE)
    (hL2 : 2 ≤ m.payload_.length) (hLmax : m.payload_.length ≤ PROTOCOL_MAX_PAYLOAD_SIZE)
    (hg : ∀ b ∈ g, ¬ b = PROTOCOL_MAGIC) :
    ∀ (cs : List (List Nat)) (k : Nat) (acc : List ProtocolMessage),
      cs.flatten = (g ++ m.serializeBytes).drop k →
      k ≤ g.length + (10 + m.payload_.length) →
      cs.foldl (fun a c => let r := feed a.1 c; (r.1, a.2 ++ r.2.toList))
          (streamAt m g B k, acc) =
        (streamAt m g B (g.length + (10 + m.payload_.length)),
         acc ++ if k < g.length + (10 + m.payload_.length) then [rtMessage m] else []) := by
  have hlen : (g ++ m.serializeBytes).length = g.length + (10 + m.payload_.length) := by
    rw [List.length_append, serializeBytes_length]
  intro cs
  induction cs with
  | nil =>
    intro k acc hjoin hk
    have hkE : k = g.length + (10 + m.payload_.length) := by
      have hd : (g ++ m.serializeBytes).drop k = [] := by
        rw [← hjoin]
        rfl
      rw [List.drop_eq_nil_iff] at hd
      omega
    subst hkE
    simp only [List.foldl_nil]
    rw [if_neg (by omega)]
    simp
  | cons c rest ih =>
    intro k acc hjoin hk
    rw [List.flatten_cons] at hjoin
    have hclen : c.length ≤ (g ++ m.serializeBytes).length - k := by
      have hlj := congrArg List.length hjoin
      rw [List.length_append, List.length_drop] at hlj
      omega
    have hkc : k + c.length ≤ g.length + (10 + m.payload_.length) := by omega
    have hc : c = ((g ++ m.serializeBytes).drop k).take c.length := by
      rw [← hjoin, List.take_left]
    have hrest : rest.flatten = (g ++ m.serializeBytes).drop (k + c.length) := by
      have hdd := congrArg (List.drop c.length) hjoin
      rw [List.drop_left, List.drop_drop] at hdd
      exact hdd
    simp only [List.foldl_cons]
    rw [hc]
    rw [stream_run m g B hB hL2 hLmax hg c.length k hkc]
    dsimp only
    rw [ih (k + c.length) _ hrest hkc]
    by_cases hlt : k + c.length < g.length + (10 + m.payload_.length)
    · rw [if_neg (by omega), if_pos hlt, if_pos (by omega)]
      simp
    · by_cases hklt : k < g.length + (10 + m.payload_.length)
      · rw [if_pos ⟨hklt, by omega⟩, if_neg hlt, if_pos hklt]
        simp
      · rw [if_neg (by omega), if_neg hlt, if_neg hklt]
        simp


/-- C7 (corrected): feeding any number N ≥ 0 of non-magic garbage bytes
followed by one validly encoded frame, in any chunking, yields exactly one
emitted message — the frame's deserialization `rtMessage m` — provided the
frame's payload length is at least 2.  The garbage is silently discarded.
For payload lengths 0 and 1 the code emits the message one byte late (only
when the next byte arrives): see `c7_counterexample`. -/
theorem c7_parser_resync (m : ProtocolMessage) (g : List Nat) (cs : List (List Nat))
    (hL2 : 2 ≤ m.payload_.length)
    (hLmax : m.payload_.length ≤ PROTOCOL_MAX_PAYLOAD_SIZE)
    (hg : ∀ b ∈ g, ¬ b = PROTOCOL_MAGIC)
    (hcs : cs.flatten = g ++ m.serializeBytes) :
    (feedChunks initParser cs).2 = [rtMessage m] := by
  have hinit : initParser = streamAt m g (List.replicate PROTOCOL_MAX_MESSAGE_SIZE 0) 0 := by
    rw [streamAt_grb m g _ 0 (by omega)]
    rfl
  unfold feedChunks
  rw [hinit]
  rw [chunks_run m g (List.replicate PROTOCOL_MAX_MESSAGE_SIZE 0) (by simp) hL2 hLmax hg
    cs 0 [] (by rw [List.drop_zero]; exact hcs) (by omega)]
  rw [if_pos (by omega)]
  rfl

/-- The original C7 fails for payloads shorter than 2 bytes: a complete
zero-payload PING frame fed as a single chunk with no garbage emits
nothing — the parser is left waiting in `WAITING_CRC` until a further byte
arrives. -/
theorem c7_counterexample :
    (feedChunks initParser [msgPing.serializeBytes]).2 = [] ∧
    msgPing.payload_.length = 0 := by
  constructor
  · rfl
  · rfl

theorem c7_witness :
    (2 ≤ msgText.payload_.length) ∧
    (msgText.payload_.length ≤ PROTOCOL_MAX_PAYLOAD_SIZE) ∧
    (∀ b ∈ [0, 255], ¬ b = PROTOCOL_MAGIC) ∧
    ([[0, 255, 79], [1, 16, 0, 5, 0, 120, 86], [104, 101, 108, 108, 111, 209], [187]].flatten
       = [0, 255] ++ msgText.serializeBytes) ∧
    (feedChunks initParser
       [[0, 255, 79], [1, 16, 0, 5, 0, 120, 86], [104, 101, 108, 108, 111, 209], [187]]).2
      = [rtMessage msgText] :=
  ⟨by decide, by decide, by decide, by decide,
   c7_parser_resync msgText [0, 255]
     [[0, 255, 79], [1, 16, 0, 5, 0, 120, 86], [104, 101, 108, 108, 111, 209], [187]]
     (by decide) (by decide) (by decide) (by decide)⟩

/-! ## VAD step lemmas (C3/C4 support) -/

theorem updateVAD_silence_speech (cfg : VadConfig) (m : VadM) (now : Nat) (rms : ℚ)
    (hm : m.vad_state_ = .SILENCE) (hr : (cfg.vad_threshold : ℚ) < rms) :
    updateVAD cfg m now rms =
      { m with vad_state_ := .VOICE_START, voice_start_time_ := now,
               voice_frame_count_ := 0 } := by
  unfold updateVAD
  rw [hm]
  dsimp only
  rw [if_pos (decide_eq_true hr)]

theorem updateVAD_silence_quiet (cfg : VadConfig) (m : VadM) (now : Nat) (rms : ℚ)
    (hm : m.vad_state_ = .SILENCE) (hr : ¬ (cfg.vad_threshold : ℚ) < rms) :
    updateVAD cfg m now rms = m := by
  unfold updateVAD
  rw [hm]
  dsimp only
  rw [if_neg (by simp [hr])]

theorem updateVAD_start_hold (cfg : VadConfig) (m : VadM) (now : Nat) (rms : ℚ)
    (hm : m.vad_state_ = .VOICE_START) (hr : (cfg.vad_threshold : ℚ) < rms)
    (hd : ¬ cfg.vad_min_duration_ms ≤ sub32 now m.voice_start_time_) :
    updateVAD cfg m now rms = m := by
  unfold updateVAD
  rw [hm]
  dsimp only
  rw [if_pos (decide_eq_true hr), if_neg hd]

theorem updateVAD_start_trigger (cfg : VadConfig) (m : VadM) (now : Nat) (rms : ℚ)
    (hm : m.vad_state_ = .VOICE_START) (hr : (cfg.vad_threshold : ℚ) < rms)
    (hd : cfg.vad_min_duration_ms ≤ sub32 now m.voice_start_time_) :
    updateVAD cfg m now rms =
      { m with vad_state_ := .VOICE_ACTIVE, voice_events_ := m.voice_events_ + 1,
               events := m.events ++ [AudioEvent.VOICE_DETECTED] } := by
  unfold updateVAD
  rw [hm]
  dsimp only
  rw [if_pos (decide_eq_true hr), if_pos hd]

theorem updateVAD_start_quiet (cfg : VadConfig) (m : VadM) (now : Nat) (rms : ℚ)
    (hm : m.vad_state_ = .VOICE_START) (hr : ¬ (cfg.vad_threshold : ℚ) < rms) :
    updateVAD cfg m now rms = { m with vad_state_ := .SILENCE } := by
  unfold updateVAD
  rw [hm]
  dsimp only
  rw [if_neg (by simp [hr])]

theorem updateVAD_active_speech (cfg : VadConfig) (m : VadM) (now : Nat) (rms : ℚ)
    (hm : m.vad_state_ = .VOICE_ACTIVE) (hr : (cfg.vad_threshold : ℚ) < rms) :
    updateVAD cfg m now rms =
      { m with voice_frame_count_ := m.voice_frame_count_ + 1 } := by
  unfold updateVAD
  rw [hm]
  dsimp only
  rw [if_pos (decide_eq_true hr)]

theorem updateVAD_active_quiet (cfg : VadConfig) (m : VadM) (now : Nat) (rms : ℚ)
    (hm : m.vad_state_ = .VOICE_ACTIVE) (hr : ¬ (cfg.vad_threshold : ℚ) < rms) :
    updateVAD cfg m now rms =
      { m with vad_state_ := .VOICE_END, silence_start_time_ := now } := by
  unfold updateVAD
  rw [hm]
  dsimp only
  rw [if_neg (by simp [hr])]

theorem updateVAD_end_speech (cfg : VadConfig) (m : VadM) (now : Nat) (rms : ℚ)
    (hm : m.vad_state_ = .VOICE_END) (hr : (cfg.vad_threshold : ℚ) < rms) :
    updateVAD cfg m now rms = { m with vad_state_ := .VOICE_ACTIVE } := by
  unfold updateVAD
  rw [hm]
  dsimp only
  rw [if_pos (decide_eq_true hr)]

theorem updateVAD_end_hold (cfg : VadConfig) (m : VadM) (now : Nat) (rms : ℚ)
    (hm : m.vad_state_ = .VOICE_END) (hr : ¬ (cfg.vad_threshold : ℚ) < rms)
    (hd : ¬ cfg.vad_silence_ms ≤ sub32 now m.silence_start_time_) :
    updateVAD cfg m now rms = m := by
  unfold updateVAD
  rw [hm]
  dsimp only
  rw [if_neg (by simp [hr]), if_neg hd]

theorem updateVAD_end_trigger (cfg : VadConfig) (m : VadM) (now : Nat) (rms : ℚ)
    (hm : m.vad_state_ = .VOICE_END) (hr : ¬ (cfg.vad_threshold : ℚ) < rms)
    (hd : cfg.vad_silence_ms ≤ sub32 now m.silence_start_time_) :
    updateVAD cfg m now rms =
      { m with vad_state_ := .SILENCE, events := m.events ++ [AudioEvent.VOICE_LOST],
               voice_frame_count_ := 0 } := by
  unfold updateVAD
  rw [hm]
  dsimp only
  rw [if_neg (by simp [hr]), if_pos hd]


theorem vad_silence_hold (cfg : VadConfig) :
    ∀ (chs : List (Nat × ℚ)) (m : VadM), m.vad_state_ = .SILENCE →
      (∀ c ∈ chs, ¬ (cfg.vad_threshold : ℚ) < c.2) →
      runVAD cfg m chs = m := by
  intro chs
  induction chs with
  | nil => intro m _ _; rfl
  | cons c rest ih =>
    intro m hm hq
    have hstep := updateVAD_silence_quiet cfg m c.1 c.2 hm (hq c (List.mem_cons_self c rest))
    unfold runVAD
    rw [List.foldl_cons]
    rw [hstep]
    exact ih m hm (fun d hd => hq d (List.mem_cons_of_mem c hd))

theorem vad_start_hold (cfg : VadConfig) :
    ∀ (chs : List (Nat × ℚ)) (m : VadM), m.vad_state_ = .VOICE_START →
      (∀ c ∈ chs, (cfg.vad_threshold : ℚ) < c.2) →
      (∀ c ∈ chs, m.voice_start_time_ ≤ c.1 ∧ c.1 < 4294967296 ∧
        c.1 - m.voice_start_time_ < cfg.vad_min_duration_ms) →
      runVAD cfg m chs = m := by
  intro chs
  induction chs with
  | nil => intro m _ _ _; rfl
  | cons c rest ih =>
    intro m hm hsp ht
    have hc := ht c (List.mem_cons_self c rest)
    have hd : ¬ cfg.vad_min_duration_ms ≤ sub32 c.1 m.voice_start_time_ := by
      rw [sub32_eq_sub hc.1 hc.2.1]
      omega
    have hstep := updateVAD_start_hold cfg m c.1 c.2 hm (hsp c (List.mem_cons_self c rest)) hd
    unfold runVAD
    rw [List.foldl_cons]
    rw [hstep]
    exact ih m hm (fun d hd2 => hsp d (List.mem_cons_of_mem c hd2))
      (fun d hd2 => ht d (List.mem_cons_of_mem c hd2))

theorem vad_active_absorb (cfg : VadConfig) :
    ∀ (chs : List (Nat × ℚ)) (m : VadM), m.vad_state_ = .VOICE_ACTIVE →
      (∀ c ∈ chs, (cfg.vad_threshold : ℚ) < c.2) →
      (runVAD cfg m chs).events = m.events ∧
        (runVAD cfg m chs).vad_state_ = .VOICE_ACTIVE := by
  intro chs
  induction chs with
  | nil => intro m hm _; exact ⟨rfl, hm⟩
  | cons c rest ih =>
    intro m hm hsp
    have hstep := updateVAD_active_speech cfg m c.1 c.2 hm (hsp c (List.mem_cons_self c rest))
    unfold runVAD
    rw [List.foldl_cons]
    rw [hstep]
    have hrec := ih { m with voice_frame_count_ := m.voice_frame_count_ + 1 } hm
      (fun d hd => hsp d (List.mem_cons_of_mem c hd))
    unfold runVAD at hrec
    exact hrec

theorem vad_end_hold (cfg : VadConfig) :
    ∀ (chs : List (Nat × ℚ)) (m : VadM), m.vad_state_ = .VOICE_END →
      (∀ c ∈ chs, ¬ (cfg.vad_threshold : ℚ) < c.2) →
      (∀ c ∈ chs, m.silence_start_time_ ≤ c.1 ∧ c.1 < 4294967296 ∧
        c.1 - m.silence_start_time_ < cfg.vad_silence_ms) →
      runVAD cfg m chs = m := by
  intro chs
  induction chs with
  | nil => intro m _ _ _; rfl
  | cons c rest ih =>
    intro m hm hsp ht
    have hc := ht c (List.mem_cons_self c rest)
    have hd : ¬ cfg.vad_silence_ms ≤ sub32 c.1 m.silence_start_time_ := by
      rw [sub32_eq_sub hc.1 hc.2.1]
      omega
    have hstep := updateVAD_end_hold cfg m c.1 c.2 hm (hsp c (List.mem_cons_self c rest)) hd
    unfold runVAD
    rw [List.foldl_cons]
    rw [hstep]
    exact ih m hm (fun d hd2 => hsp d (List.mem_cons_of_mem c hd2))
      (fun d hd2 => ht d (List.mem_cons_of_mem c hd2))

theorem vad_start_trigger (cfg : VadConfig) :
    ∀ (rest : List (Nat × ℚ)) (c : Nat × ℚ) (m : VadM),
      m.vad_state_ = .VOICE_START →
      (cfg.vad_threshold : ℚ) < c.2 →
      (∀ d ∈ rest, (cfg.vad_threshold : ℚ) < d.2) →
      (m.voice_start_time_ ≤ c.1 ∧ c.1 < 4294967296) →
      (∀ d ∈ rest, m.voice_start_time_ ≤ d.1 ∧ d.1 < 4294967296) →
      cfg.vad_min_duration_ms ≤ (rest.getLastD c).1 - m.voice_start_time_ →
      (runVAD cfg m (c :: rest)).events = m.events ++ [AudioEvent.VOICE_DETECTED] ∧
        (runVAD cfg m (c :: rest)).vad_state_ = .VOICE_ACTIVE := by
  intro rest
  induction rest with
  | nil =>
    intro c m hm hc _ hcb _ hD
    have hsub : cfg.vad_min_duration_ms ≤ sub32 c.1 m.voice_start_time_ := by
      rw [sub32_eq_sub hcb.1 hcb.2]
      simpa using hD
    have hstep := updateVAD_start_trigger cfg m c.1 c.2 hm hc hsub
    unfold runVAD
    rw [List.foldl_cons]
    rw [hstep]
    exact ⟨rfl, rfl⟩
  | cons c2 rest2 ih =>
    intro c m hm hc hrest hcb hrb hD
    rw [List.getLastD_cons] at hD
    by_cases htrig : cfg.vad_min_duration_ms ≤ sub32 c.1 m.voice_start_time_
    · have hstep := updateVAD_start_trigger cfg m c.1 c.2 hm hc htrig
      unfold runVAD
      rw [List.foldl_cons]
      rw [hstep]
      have habs := vad_active_absorb cfg (c2 :: rest2)
        { m with vad_state_ := .VOICE_ACTIVE, voice_events_ := m.voice_events_ + 1,
                 events := m.events ++ [AudioEvent.VOICE_DETECTED] } rfl hrest
      unfold runVAD at habs
      exact ⟨habs.1, habs.2⟩
    · have hstep := updateVAD_start_hold cfg m c.1 c.2 hm hc htrig
      unfold runVAD
      rw [List.foldl_cons]
      rw [hstep]
      have hrec := ih c2 m hm (hrest c2 (List.mem_cons_self c2 rest2))
        (fun d hd => hrest d (List.mem_cons_of_mem c2 hd))
        (hrb c2 (List.mem_cons_self c2 rest2))
        (fun d hd => hrb d (List.mem_cons_of_mem c2 hd))
        hD
      unfold runVAD at hrec
      exact hrec

theorem vad_end_trigger (cfg : VadConfig) :
    ∀ (rest : List (Nat × ℚ)) (c : Nat × ℚ) (m : VadM),
      m.vad_state_ = .VOICE_END →
      ¬ (cfg.vad_threshold : ℚ) < c.2 →
      (∀ d ∈ rest, ¬ (cfg.vad_threshold : ℚ) < d.2) →
      (m.silence_start_time_ ≤ c.1 ∧ c.1 < 4294967296) →
      (∀ d ∈ rest, m.silence_start_time_ ≤ d.1 ∧ d.1 < 4294967296) →
      cfg.vad_silence_ms ≤ (rest.getLastD c).1 - m.silence_start_time_ →
      (runVAD cfg m (c :: rest)).events = m.events ++ [AudioEvent.VOICE_LOST] ∧
        (runVAD cfg m (c :: rest)).vad_state_ = .SILENCE := by
  intro rest
  induction rest with
  | nil =>
    intro c m hm hc _ hcb _ hD
    have hsub : cfg.vad_silence_ms ≤ sub32 c.1 m.silence_start_time_ := by
      rw [sub32_eq_sub hcb.1 hcb.2]
      simpa using hD
    have hstep := updateVAD_end_trigger cfg m c.1 c.2 hm hc hsub
    unfold runVAD
    rw [List.foldl_cons]
    rw [hstep]
    exact ⟨rfl, rfl⟩
  | cons c2 rest2 ih =>
    intro c m hm hc hrest hcb hrb hD
    rw [List.getLastD_cons] at hD
    by_cases htrig : cfg.vad_silence_ms ≤ sub32 c.1 m.silence_start_time_
    · have hstep := updateVAD_end_trigger cfg m c.1 c.2 hm hc htrig
      unfold runVAD
      rw [List.foldl_cons]
      rw [hstep]
      have habs := vad_silence_hold cfg (c2 :: rest2)
        { m with vad_state_ := .SILENCE, events := m.events ++ [AudioEvent.VOICE_LOST],
                 voice_frame_count_ := 0 } rfl hrest
      unfold runVAD at habs
      rw [habs]
      exact ⟨rfl, rfl⟩
    · have hstep := updateVAD_end_hold cfg m c.1 c.2 hm hc htrig
      unfold runVAD
      rw [List.foldl_cons]
      rw [hstep]
      have hrec := ih c2 m hm (hrest c2 (List.mem_cons_self c2 rest2))
        (fun d hd => hrest d (List.mem_cons_of_mem c2 hd))
        (hrb c2 (List.mem_cons_self c2 rest2))
        (fun d hd => hrb d (List.mem_cons_of_mem c2 hd))
        hD
      unfold runVAD at hrec
      exact hrec


/-- C3: VAD debounce.  From silence, a speech chunk at `t0` followed by
speech chunks all strictly less than `vad_min_duration_ms` after `t0` and
then a below-threshold chunk leaves the machine back in `SILENCE` with no
event emitted (the run is the identity on the event list); if instead the
speech chunks span strictly more than `vad_min_duration_ms`, exactly one
`VOICE_DETECTED` is appended and the state is `VOICE_ACTIVE`. -/
theorem c3_vad_debounce (cfg : VadConfig) (m0 : VadM) (t0 : Nat) (r0 : ℚ)
    (mid : List (Nat × ℚ))
    (hs : m0.vad_state_ = .SILENCE)
    (hr0 : (cfg.vad_threshold : ℚ) < r0)
    (hsp : ∀ c ∈ mid, (cfg.vad_threshold : ℚ) < c.2)
    (hts : ∀ c ∈ mid, t0 ≤ c.1 ∧ c.1 < 4294967296) :
    ((∀ c ∈ mid, c.1 - t0 < cfg.vad_min_duration_ms) →
      ∀ (s : Nat) (r : ℚ), ¬ (cfg.vad_threshold : ℚ) < r →
        runVAD cfg m0 (((t0, r0) :: mid) ++ [(s, r)]) =
          { m0 with vad_state_ := .SILENCE, voice_start_time_ := t0,
                    voice_frame_count_ := 0 }) ∧
    (cfg.vad_min_duration_ms < (mid.getLastD (t0, r0)).1 - t0 →
      (runVAD cfg m0 ((t0, r0) :: mid)).events = m0.events ++ [AudioEvent.VOICE_DETECTED] ∧
        (runVAD cfg m0 ((t0, r0) :: mid)).vad_state_ = .VOICE_ACTIVE) := by
  have hstep0 := updateVAD_silence_speech cfg m0 t0 r0 hs hr0
  constructor
  · intro hshort s r hq
    have hhold := vad_start_hold cfg mid
      { m0 with vad_state_ := .VOICE_START, voice_start_time_ := t0,
                voice_frame_count_ := 0 } rfl hsp
      (by
        intro c hc
        dsimp only
        exact ⟨(hts c hc).1, (hts c hc).2, hshort c hc⟩)
    unfold runVAD at hhold
    have hquiet := updateVAD_start_quiet cfg
      { m0 with vad_state_ := .VOICE_START, voice_start_time_ := t0,
                voice_frame_count_ := 0 } s r rfl hq
    unfold runVAD
    rw [List.cons_append, List.foldl_cons]
    dsimp only
    rw [hstep0, List.foldl_append, hhold, List.foldl_cons]
    dsimp only
    rw [hquiet, List.foldl_nil]
  · intro hlong
    cases mid with
    | nil =>
      exfalso
      have h0 : (List.getLastD ([] : List (Nat × ℚ)) (t0, r0)) = (t0, r0) := rfl
      rw [h0] at hlong
      dsimp only at hlong
      omega
    | cons c rest =>
      rw [List.getLastD_cons] at hlong
      have htrig := vad_start_trigger cfg rest c
        { m0 with vad_state_ := .VOICE_START, voice_start_time_ := t0,
                  voice_frame_count_ := 0 } rfl
        (hsp c (List.mem_cons_self c rest))
        (fun d hd => hsp d (List.mem_cons_of_mem c hd))
        ⟨(hts c (List.mem_cons_self c rest)).1, (hts c (List.mem_cons_self c rest)).2⟩
        (fun d hd => ⟨(hts d (List.mem_cons_of_mem c hd)).1,
          (hts d (List.mem_cons_of_mem c hd)).2⟩)
        (by dsimp only; omega)
      unfold runVAD at htrig
      unfold runVAD
      rw [List.foldl_cons]
      dsimp only
      rw [hstep0]
      exact ⟨htrig.1, htrig.2⟩

/-- C4: VAD hangover.  From active voice, a below-threshold chunk at `s0`
followed by below-threshold chunks all strictly within `vad_silence_ms` of
`s0` leaves the machine in the hangover state `VOICE_END` with no event
emitted; once the below-threshold chunks span at least `vad_silence_ms`
(with a positive hangover configured), exactly one `VOICE_LOST` is
appended and the state returns to `SILENCE`. -/
theorem c4_vad_hangover (cfg : VadConfig) (m0 : VadM) (s0 : Nat) (q0 : ℚ)
    (mid : List (Nat × ℚ))
    (ha : m0.vad_state_ = .VOICE_ACTIVE)
    (hq0 : ¬ (cfg.vad_threshold : ℚ) < q0)
    (hsp : ∀ c ∈ mid, ¬ (cfg.vad_threshold : ℚ) < c.2)
    (hts : ∀ c ∈ mid, s0 ≤ c.1 ∧ c.1 < 4294967296) :
    ((∀ c ∈ mid, c.1 - s0 < cfg.vad_silence_ms) →
      runVAD cfg m0 ((s0, q0) :: mid) =
        { m0 with vad_state_ := .VOICE_END, silence_start_time_ := s0 }) ∧
    (0 < cfg.vad_silence_ms →
      cfg.vad_silence_ms ≤ (mid.getLastD (s0, q0)).1 - s0 →
      (runVAD cfg m0 ((s0, q0) :: mid)).events = m0.events ++ [AudioEvent.VOICE_LOST] ∧
        (runVAD cfg m0 ((s0, q0) :: mid)).vad_state_ = .SILENCE) := by
  have hstep0 := updateVAD_active_quiet cfg m0 s0 q0 ha hq0
  constructor
  · intro hshort
    have hhold := vad_end_hold cfg mid
      { m0 with vad_state_ := .VOICE_END, silence_start_time_ := s0 } rfl hsp
      (by
        intro c hc
        dsimp only
        exact ⟨(hts c hc).1, (hts c hc).2, hshort c hc⟩)
    unfold runVAD at hhold
    unfold runVAD
    rw [List.foldl_cons]
    dsimp only
    rw [hstep0]
    exact hhold
  · intro hpos hlong
    cases mid with
    | nil =>
      exfalso
      have h0 : (List.getLastD ([] : List (Nat × ℚ)) (s0, q0)) = (s0, q0) := rfl
      rw [h0] at hlong
      dsimp only at hlong
      omega
    | cons c rest =>
      rw [List.getLastD_cons] at hlong
      have htrig := vad_end_trigger cfg rest c
        { m0 with vad_state_ := .VOICE_END, silence_start_time_ := s0 } rfl
        (hsp c (List.mem_cons_self c rest))
        (fun d hd => hsp d (List.mem_cons_of_mem c hd))
        ⟨(hts c (List.mem_cons_self c rest)).1, (hts c (List.mem_cons_self c rest)).2⟩
        (fun d hd => ⟨(hts d (List.mem_cons_of_mem c hd)).1,
          (hts d (List.mem_cons_of_mem c hd)).2⟩)
        (by dsimp only; omega)
      unfold runVAD at htrig
      unfold runVAD
      rw [List.foldl_cons]
      dsimp only
      rw [hstep0]
      exact ⟨htrig.1, htrig.2⟩

theorem c3_witness :
    (runVAD cfgW vadInit [(0, 800), (100, 800), (250, 800)]).events
        = [AudioEvent.VOICE_DETECTED] ∧
    runVAD cfgW vadInit [(0, 800), (50, 800), (150, 300)] =
      { vadInit with vad_state_ := .SILENCE, voice_start_time_ := 0,
                     voice_frame_count_ := 0 } := by
  constructor
  · have h := (c3_vad_debounce cfgW vadInit 0 800 [(100, 800), (250, 800)] rfl
      (by norm_num [cfgW]) (by decide) (by decide)).2 (by decide)
    simpa using h.1
  · have h := (c3_vad_debounce cfgW vadInit 0 800 [(50, 800)] rfl
      (by norm_num [cfgW]) (by decide) (by decide)).1 (by decide) 150 300
      (by norm_num [cfgW])
    simpa using h

theorem c4_witness :
    (runVAD cfgW vadActive [(300, 100), (400, 100), (800, 100)]).events
        = [AudioEvent.VOICE_DETECTED, AudioEvent.VOICE_LOST] ∧
    runVAD cfgW vadActive [(300, 100), (400, 100), (700, 100)] =
      { vadActive with vad_state_ := .VOICE_END, silence_start_time_ := 300 } := by
  constructor
  · have h := (c4_vad_hangover cfgW vadActive 300 100 [(400, 100), (800, 100)] rfl
      (by norm_num [cfgW]) (by decide) (by decide)).2 (by decide) (by decide)
    simpa using h.1
  · have h := (c4_vad_hangover cfgW vadActive 300 100 [(400, 100), (700, 100)] rfl
      (by norm_num [cfgW]) (by decide) (by decide)).1 (by decide)
    simpa using h


end OpenClaw
